import Mathlib

/-!
# Content generator front end (`backend/static/script.js`)

A shallow embedding of the view-state manager of `script.js`: the version
store (`generatedVersions`, `activeVersionIndex`), the content renderer
(`showVersion`), the handlers that drive them (`clearResults`,
`displayResults`, `generateContent`, the submit-refine click handler), and the
voice selection of the speech controller (`findAndSetVoices`).

Conventions of the embedding.

* A JavaScript string is a list of characters (`JsString`).  Its `length` is
  counted in UTF-16 code units (`jsLength`); strings holding a lone surrogate
  are not represented.
* A value obtained from `response.json()` is a `Json`.  An object is the list
  of its own properties in enumeration order, each key occurring once.  A
  number is a `JsNumber`: a finite double is identified by the shortest
  decimal that denotes it, which is what `Number::toString` prints it from.
* A `Version` is the record of the data model: its `content` is an arbitrary
  `Json`, its `analysis` is present and carries three numeric scores, its
  `justification` is absent or a text, its `virality_score` absent or a number.
* The outcome of a network call is an argument of the handler that makes it.
  `generateContent` and `submitRefine` run a handler with nothing in between
  its `await` points; their two parts (`...Start`, `...Resume`) and `Page` let
  other handlers run while a call is in flight.
* What belongs to the JavaScript engine and not to the script (the text of the
  engine's `TypeError` messages, the conversion of a string to a number) is a
  field of `Engine`, and every statement holds for every `Engine`; likewise
  `String.prototype.toLowerCase` is an argument of the voice predicates.
-/

namespace ContentGen

/-! ## Strings -/

/-- JavaScript string. -/
abbrev JsString := List Char

/-- Number of UTF-16 code units of a character. -/
def utf16Units (c : Char) : Nat := if c.toNat < 65536 then 1 else 2

/-- The `length` property of a string: its number of UTF-16 code units. -/
def jsLength (s : JsString) : Nat := (s.map utf16Units).sum

/-- White space and line terminators, the characters `String.prototype.trim`
removes: TAB, LF, VT, FF, CR, SP, NBSP, U+1680, U+2000..U+200A, U+2028, U+2029,
U+202F, U+205F, U+3000, U+FEFF. -/
def isTrimChar (c : Char) : Bool :=
  let n := c.toNat
  (9 ≤ n && n ≤ 13) || n == 32 || n == 160 || n == 5760 || (8192 ≤ n && n ≤ 8202) ||
    n == 8232 || n == 8233 || n == 8239 || n == 8287 || n == 12288 || n == 65279

/-- Model of `String.prototype.trim`. -/
def jsTrim (s : JsString) : JsString := (s.dropWhile isTrimChar).rdropWhile isTrimChar

/-- Decimal digit character of a number below ten. -/
def digitChar (d : Nat) : Char := Char.ofNat (48 + d % 10)

/-- Decimal digits of `n`, most significant first, at most `fuel` of them. -/
def decimalAux : Nat → Nat → JsString
  | 0, _ => []
  | fuel + 1, n => if n < 10 then [digitChar n] else decimalAux fuel (n / 10) ++ [digitChar n]

/-- Model of `String(n)` for a non-negative integer. -/
def decimal (n : Nat) : JsString := decimalAux (n + 1) n

/-! ## Numbers -/

/-- A number that `JSON.parse` can produce.  `finite negative digits exponent`
is the finite double of value `± digits × 10 ^ exponent`, given by the shortest
decimal that denotes it (the integers `s` and `n - k` of `Number::toString`);
both zeros have `digits = 0`.  `infinite` is what a literal too large for a
double parses to. -/
inductive JsNumber where
  | finite (negative : Bool) (digits : Nat) (exponent : Int)
  | infinite (negative : Bool)

/-- The number of a non-negative integer. -/
def JsNumber.ofNat (n : Nat) : JsNumber := .finite false n 0

/-- Whether a number is `+0` or `-0`. -/
def JsNumber.isZero : JsNumber → Bool
  | .finite _ 0 _ => true
  | _ => false

/-- Trailing zeros of `digits` moved into the exponent, at most `fuel` of them. -/
def stripZeros : Nat → Nat → Int → Nat × Int
  | 0, digits, exponent => (digits, exponent)
  | fuel + 1, digits, exponent =>
    if digits ≠ 0 ∧ digits % 10 = 0 then stripZeros fuel (digits / 10) (exponent + 1)
    else (digits, exponent)

/-- Steps 5 to 10 of `Number::toString` for the positive value
`digits × 10 ^ exponent`, `digits` not ending in 0: with `k` the number of
digits and `n = exponent + k`, plain digits when `k ≤ n ≤ 21`, a decimal point
inside when `0 < n ≤ 21`, `0.` and zeros in front when `-6 < n ≤ 0`, exponent
form otherwise. -/
def positiveText (digits : Nat) (exponent : Int) : JsString :=
  let ds := decimal digits
  let k : Int := ds.length
  let n : Int := exponent + k
  if k ≤ n ∧ n ≤ 21 then ds ++ List.replicate (n - k).toNat '0'
  else if 0 < n ∧ n ≤ 21 then ds.take n.toNat ++ '.' :: ds.drop n.toNat
  else if -6 < n ∧ n ≤ 0 then '0' :: '.' :: (List.replicate (-n).toNat '0' ++ ds)
  else
    let expText := 'e' :: (if n - 1 < 0 then '-' else '+') :: decimal (n - 1).natAbs
    match ds with
    | [] => expText -- not reached: a number has at least one digit
    | [d] => d :: expText
    | d :: rest => d :: '.' :: (rest ++ expText)

/-- Model of `Number::toString` (radix 10), the `ToString` of a number. -/
def numberToString : JsNumber → JsString
  | .infinite false => "Infinity".toList
  | .infinite true => "-Infinity".toList
  | .finite _ 0 _ => ['0']
  | .finite negative (d + 1) exponent =>
    (if negative then ['-'] else []) ++
      positiveText (stripZeros (d + 1) (d + 1) exponent).1 (stripZeros (d + 1) (d + 1) exponent).2

/-- The value of `x > limit` for a number `x` and an integer `limit`. -/
def numberGreater (x : JsNumber) (limit : Int) : Bool :=
  match x with
  | .infinite negative => !negative
  | .finite negative digits exponent =>
    let v : Int := if negative then -(digits : Int) else digits
    if 0 ≤ exponent then decide (v * 10 ^ exponent.toNat > limit)
    else decide (v > limit * 10 ^ (-exponent).toNat)

/-! ## JSON values -/

/-- A value produced by `JSON.parse`. -/
inductive Json where
  | null
  | bool (b : Bool)
  | num (x : JsNumber)
  | str (s : JsString)
  | arr (items : List Json)
  | obj (fields : List (JsString × Json))

/-- What the embedding takes from the JavaScript engine. -/
structure Engine where
  /-- Whether the number a string converts to (`StringToNumber`) is greater than `n`. -/
  stringGreater : JsString → Int → Bool
  /-- Message of the `TypeError` raised on reading the given property of `null`. -/
  nullReadMessage : JsString → JsString
  /-- Message of the `TypeError` raised on reading the given property of `undefined`. -/
  undefinedReadMessage : JsString → JsString
  /-- Message of the `TypeError` raised when an object has no primitive value. -/
  toPrimitiveMessage : JsString

/-- Own property of an object, `none` standing for `undefined`. -/
def lookupField (k : JsString) : List (JsString × Json) → Option Json
  | [] => none
  | (k', v) :: rest => if k' = k then some v else lookupField k rest

/-- The value of `v.name` for a value `v` other than `null` and a property name
that no prototype defines (`caption`, `script`, `thread`, `detail`): the own
property of an object, `undefined` for every other value. -/
def prop (name : JsString) : Json → Option Json
  | .obj fields => lookupField name fields
  | _ => none

/-- The value of `v.name` for any `v`: reading a property of `null` raises a
`TypeError`. -/
def getProp (eng : Engine) (name : JsString) : Json → Except JsString (Option Json)
  | .null => .error (eng.nullReadMessage name)
  | v => .ok (prop name v)

/-- JavaScript truthiness of a JSON value. -/
def truthy : Json → Bool
  | .null => false
  | .bool b => b
  | .num x => !x.isZero
  | .str s => !s.isEmpty
  | .arr _ => true
  | .obj _ => true

/-- Truthiness of a possibly `undefined` value. -/
def truthyVal : Option Json → Bool
  | none => false
  | some v => truthy v

/-- Model of `Array.isArray` on a possibly `undefined` value. -/
def isArrayVal : Option Json → Bool
  | some (.arr _) => true
  | _ => false

mutual
/-- Model of `ToString` as applied by a template literal.  An object with an
own `toString` property (never callable in a parsed document) has no primitive
value; any other object converts through `Object.prototype.toString`, an array
through `Array.prototype.join`. -/
def toStr (eng : Engine) : Json → Except JsString JsString
  | .null => .ok "null".toList
  | .bool true => .ok "true".toList
  | .bool false => .ok "false".toList
  | .num x => .ok (numberToString x)
  | .str s => .ok s
  | .arr items => joinItems eng items
  | .obj fields =>
    match lookupField "toString".toList fields with
    | some _ => .error eng.toPrimitiveMessage
    | none => .ok "[object Object]".toList
termination_by structural j => j
/-- Model of `Array.prototype.join` with the default separator: `null` elements
give the empty string. -/
def joinItems (eng : Engine) : List Json → Except JsString JsString
  | [] => .ok []
  | x :: rest =>
    match (match x with
      | .null => Except.ok []
      | j => toStr eng j : Except JsString JsString) with
    | .error e => .error e
    | .ok sx =>
      match rest with
      | [] => .ok sx
      | _ :: _ =>
        match joinItems eng rest with
        | .error e => .error e
        | .ok sr => .ok (sx ++ ',' :: sr)
termination_by structural l => l
end

/-- Template-literal conversion of a possibly `undefined` value. -/
def toStrVal (eng : Engine) : Option Json → Except JsString JsString
  | none => .ok "undefined".toList
  | some v => toStr eng v

/-! ## `JSON.stringify(value, null, 2)` -/

/-- Lower-case hexadecimal digit. -/
def hexChar (d : Nat) : Char :=
  if d % 16 < 10 then Char.ofNat (48 + d % 16) else Char.ofNat (87 + d % 16)

/-- Escape of one character inside a JSON string literal (`QuoteJSONString`). -/
def quoteChar (c : Char) : JsString :=
  let n := c.toNat
  if n = 8 then "\\b".toList
  else if n = 9 then "\\t".toList
  else if n = 10 then "\\n".toList
  else if n = 12 then "\\f".toList
  else if n = 13 then "\\r".toList
  else if n = 34 then "\\\"".toList
  else if n = 92 then "\\\\".toList
  else if n < 32 then "\\u00".toList ++ [hexChar (n / 16), hexChar n]
  else [c]

/-- Model of `QuoteJSONString`. -/
def quoteJson (s : JsString) : JsString := '"' :: (s.flatMap quoteChar ++ ['"'])

mutual
/-- Model of `SerializeJSONProperty` with gap of two spaces, `indent` being the
current indentation. -/
def stringifyAt (indent : JsString) : Json → JsString
  | .null => "null".toList
  | .bool true => "true".toList
  | .bool false => "false".toList
  | .num (.infinite _) => "null".toList
  | .num x => numberToString x
  | .str s => quoteJson s
  | .arr [] => "[]".toList
  | .arr (x :: rest) =>
    "[\n".toList ++ stringifyItems (' ' :: ' ' :: indent) (x :: rest) ++ '\n' :: indent ++ [']']
  | .obj [] => "\x7b\x7d".toList
  | .obj (f :: rest) =>
    "\x7b\n".toList ++ stringifyFields (' ' :: ' ' :: indent) (f :: rest) ++ '\n' :: indent ++ ['}']
termination_by structural j => j
/-- Elements of an array, each on its own line at indentation `indent`. -/
def stringifyItems (indent : JsString) : List Json → JsString
  | [] => []
  | x :: rest =>
    indent ++ stringifyAt indent x ++
      (match rest with
       | [] => []
       | _ :: _ => ',' :: '\n' :: stringifyItems indent rest)
termination_by structural l => l
/-- Members of an object, each on its own line at indentation `indent`. -/
def stringifyFields (indent : JsString) : List (JsString × Json) → JsString
  | [] => []
  | (k, v) :: rest =>
    indent ++ quoteJson k ++ ':' :: ' ' :: stringifyAt indent v ++
      (match rest with
       | [] => []
       | _ :: _ => ',' :: '\n' :: stringifyFields indent rest)
termination_by structural l => l
end

/-- Model of `JSON.stringify(value, null, 2)`. -/
def jsonStringify (v : Json) : JsString := stringifyAt [] v

/-! ## Data model -/

/-- The three scores of a version. -/
structure Analysis where
  readability : JsNumber
  engagement_potential : JsNumber
  human_likeness : JsNumber

/-- One generated content candidate. -/
structure Version where
  content : Json
  analysis : Analysis
  justification : Option JsString
  virality_score : Option JsNumber

/-- A character-count badge: a `div` of class `char-count`. -/
structure Badge where
  /-- Its `textContent`. -/
  textContent : JsString
  /-- Its `style.top`. -/
  top : JsString
  /-- Whether it carries the class `over-limit`. -/
  overLimit : Bool

/-- A button of class `output-tab-btn`. -/
structure Tab where
  /-- Its `textContent`. -/
  label : JsString
  /-- Its `dataset.index`. -/
  index : Nat
  /-- The `innerHTML` of its `virality-score` span, when it has one. -/
  virality : Option JsString
  /-- Whether it carries the class `active`. -/
  active : Bool

/-- The state variables of the script and the part of the document its
version store and renderer read and write. -/
structure State where
  generatedVersions : List Version
  activeVersionIndex : Int
  /-- The property `outputText.value`. -/
  outputText : JsString
  /-- Whether `outputText` has the attribute `readonly`. -/
  readonly : Bool
  /-- Whether `editBtn` carries the class `active`. -/
  editActive : Bool
  /-- The buttons of `outputTabsContainer`. -/
  tabs : List Tab
  /-- The elements of class `char-count` of the document, in document order. -/
  badges : List Badge
  /-- The `innerHTML` of `justificationBox`. -/
  justificationHtml : JsString
  justificationHidden : Bool
  readabilityText : JsString
  engagementText : JsString
  humanLikenessText : JsString
  /-- The percentages last passed to `updateShape` for the shapes 0, 1, 2. -/
  shapeTargets : List JsNumber
  /-- The property `synth.speaking`. -/
  speaking : Bool
  /-- Whether `generateBtn` carries the class `loading`. -/
  loading : Bool
  /-- The `textContent` of `generateBtn`. -/
  generateLabel : JsString
  /-- The property `ideaInput.value`. -/
  ideaInput : JsString
  /-- The property `brandVoiceInput.value`. -/
  brandVoiceInput : JsString
  /-- The property `refineInput.value`. -/
  refineInput : JsString
  /-- The `textContent` of `submitRefineBtn`. -/
  submitRefineLabel : JsString
  submitRefineDisabled : Bool
  cancelRefineDisabled : Bool
  refineContainerHidden : Bool
  ttsControlsHidden : Bool
  scoreSectionHidden : Bool
  videoContainerHidden : Bool
  /-- The property `videoPlayer.src`. -/
  videoSrc : JsString
  /-- The messages passed to `alert`, oldest first. -/
  alerts : List JsString
  /-- The URLs passed to `fetch`, oldest first. -/
  requests : List JsString

/-- The state in which the script starts: the state variables as lines 37-42
declare them (no version, active index 0) and the document of a page on which
nothing has been generated yet. -/
def State.initial : State where
  generatedVersions := []
  activeVersionIndex := 0
  outputText := []
  readonly := true
  editActive := false
  tabs := []
  badges := []
  justificationHtml := []
  justificationHidden := true
  readabilityText := "0%".toList
  engagementText := "0%".toList
  humanLikenessText := "0%".toList
  shapeTargets := [.ofNat 0, .ofNat 0, .ofNat 0]
  speaking := false
  loading := false
  generateLabel := "Generate Content".toList
  ideaInput := []
  brandVoiceInput := []
  refineInput := []
  submitRefineLabel := "Refine".toList
  submitRefineDisabled := false
  cancelRefineDisabled := false
  refineContainerHidden := true
  ttsControlsHidden := false
  scoreSectionHidden := false
  videoContainerHidden := true
  videoSrc := []
  alerts := []
  requests := []

/-- The state a call leaves behind, with the message of the error it threw, if
it threw one. -/
structure Outcome where
  state : State
  thrown : Option JsString

/-! ## Content renderer -/

/-- The fixed platform limit `X_CHAR_LIMIT`. -/
def X_CHAR_LIMIT : Nat := 280

/-- The value of `tweet.length`: `count n` is the length of a string (its number
of code units) or of an array (its number of elements), an integer below
`2 ^ 53`; `value v` is the own property `length` of an object, or `undefined`
for a number or a boolean. -/
inductive LengthValue where
  | count (n : Nat)
  | value (v : Option Json)

/-- Model of `tweet.length`; reading it from `null` raises a `TypeError`. -/
def charLengthOf (eng : Engine) : Json → Except JsString LengthValue
  | .null => .error (eng.nullReadMessage "length".toList)
  | .str s => .ok (.count (jsLength s))
  | .arr items => .ok (.count items.length)
  | .obj fields => .ok (.value (lookupField "length".toList fields))
  | _ => .ok (.value none)

/-- The value of `v > limit` for a possibly `undefined` JSON value `v`:
`undefined` and an object convert to `NaN`, `null` to 0, a boolean to 0 or 1,
an array converts through its string. -/
def greaterThan (eng : Engine) (limit : Int) : Option Json → Except JsString Bool
  | none => .ok false
  | some .null => .ok (decide (0 > limit))
  | some (.bool b) => .ok (decide ((if b then 1 else 0) > limit))
  | some (.num x) => .ok (numberGreater x limit)
  | some (.str s) => .ok (eng.stringGreater s limit)
  | some (.arr items) =>
    match joinItems eng items with
    | .error e => .error e
    | .ok s => .ok (eng.stringGreater s limit)
  | some (.obj fields) =>
    match lookupField "toString".toList fields with
    | some _ => .error eng.toPrimitiveMessage
    | none => .ok false

/-- The text of `charLength` in a template literal: a length prints in plain
digits. -/
def lengthText (eng : Engine) : LengthValue → Except JsString JsString
  | .count n => .ok (decimal n)
  | .value v => toStrVal eng v

/-- The value of `charLength > limit`. -/
def lengthOver (eng : Engine) (limit : Nat) : LengthValue → Except JsString Bool
  | .count n => .ok (decide (n > limit))
  | .value v => greaterThan eng limit v

/-- The text of `2 + (lineCount * 1.5)` followed by `rem`. -/
def topOf (lineCount : Nat) : JsString :=
  decimal (2 + (3 * lineCount) / 2) ++ (if lineCount % 2 = 1 then ".5".toList else []) ++
    "rem".toList

/-- Number of matches of `/\n/g` in a string. -/
def countNewlines (s : JsString) : Nat := s.count '\n'

/-- What the rendering of a content leaves: the local `formattedContent`, the
badges appended to the wrapper, and the message of the error thrown, if any. -/
structure Rendered where
  formatted : JsString
  badges : List Badge
  thrown : Option JsString

/-- The callback of `content.thread.forEach`, run over the tweets from index
`i` on, `total` being `content.thread.length`, `acc` the `formattedContent` so
far and `bs` the badges appended so far. -/
def threadLoop (eng : Engine) (total : Nat) : List Json → Nat → JsString → List Badge → Rendered
  | [], _, acc, bs => ⟨acc, bs, none⟩
  | tweet :: rest, i, acc, bs =>
    let lineCount := countNewlines acc
    match toStr eng tweet with
    | .error e => ⟨acc, bs, some e⟩
    | .ok text =>
      let acc1 := acc ++ ('[' :: decimal (i + 1) ++ '/' :: decimal total ++ ']' :: '\n' :: text ++
        "\n\n".toList)
      match charLengthOf eng tweet with
      | .error e => ⟨acc1, bs, some e⟩
      | .ok charLength =>
        match lengthText eng charLength with
        | .error e => ⟨acc1, bs, some e⟩
        | .ok lenText =>
          match lengthOver eng X_CHAR_LIMIT charLength with
          | .error e => ⟨acc1, bs, some e⟩
          | .ok over =>
            threadLoop eng total rest (i + 1) acc1
              (bs ++ [⟨lenText ++ " / ".toList ++ decimal X_CHAR_LIMIT, topOf lineCount, over⟩])

/-- The label of the fallback branch. -/
def fallbackLabel : JsString := "Error: Received unexpected content format.\n\n".toList

/-- The branches of `showVersion` on the shape of `content` (lines 375-398). -/
def renderContent (eng : Engine) (content : Json) : Rendered :=
  match content with
  | .str s => ⟨s, [], none⟩
  | _ =>
    if truthy content && truthyVal (prop "caption".toList content) &&
        truthyVal (prop "script".toList content) then
      match toStrVal eng (prop "caption".toList content) with
      | .error e => ⟨[], [], some e⟩
      | .ok caption =>
        match toStrVal eng (prop "script".toList content) with
        | .error e => ⟨[], [], some e⟩
        | .ok script =>
          ⟨"CAPTION:\n".toList ++ caption ++ "\n\n---\n\nSCRIPT:\n".toList ++ script, [], none⟩
    else
      match truthy content, prop "thread".toList content with
      | true, some (.arr tweets) => threadLoop eng tweets.length tweets 0 [] []
      | _, _ => ⟨fallbackLabel ++ jsonStringify content, [], none⟩

/-- The tab buttons after `btn.classList.toggle('active', i === index)`. -/
def toggleTabs (index : Int) (tabs : List Tab) : List Tab :=
  tabs.enum.map fun p => { p.2 with active := decide ((p.1 : Int) = index) }

/-- Truthiness of an optional text: present and not empty. -/
def hasText : Option JsString → Bool
  | some (_ :: _) => true
  | _ => false

/-- The `innerHTML` given to `justificationBox` for a non-empty justification. -/
def justificationMarkup (j : JsString) : JsString :=
  "<p><strong>AI Analyst:</strong> <em>\"".toList ++ j ++ "\"</em></p>".toList

/-- The body of `showVersion(index)` past its guard (lines 364-414),
`versionData` being `generatedVersions[index]`. -/
def renderVersion (eng : Engine) (s : State) (index : Int) (versionData : Version) : Outcome :=
  let s1 : State := { s with
    activeVersionIndex := index
    speaking := false
    readonly := true
    editActive := false
    tabs := toggleTabs index s.tabs
    badges := [] }
  let r := renderContent eng versionData.content
  let s2 : State := { s1 with badges := r.badges }
  match r.thrown with
  | some e => ⟨s2, some e⟩
  | none =>
    ⟨{ s2 with
        outputText := jsTrim r.formatted
        justificationHtml :=
          if hasText versionData.justification then
            justificationMarkup (versionData.justification.getD [])
          else []
        justificationHidden := !hasText versionData.justification
        readabilityText := numberToString versionData.analysis.readability ++ ['%']
        engagementText := numberToString versionData.analysis.engagement_potential ++ ['%']
        humanLikenessText := numberToString versionData.analysis.human_likeness ++ ['%']
        shapeTargets := [versionData.analysis.readability,
          versionData.analysis.engagement_potential, versionData.analysis.human_likeness] },
      none⟩

/-- Model of `showVersion(index)`. -/
def showVersion (eng : Engine) (s : State) (index : Int) : Outcome :=
  if index ≥ s.generatedVersions.length ∨ index < 0 then ⟨s, none⟩
  else
    match s.generatedVersions[index.toNat]? with
    | none => ⟨s, none⟩ -- not reached: past the guard the index is in range
    | some versionData => renderVersion eng s index versionData

/-! ## Version store and handlers -/

/-- Model of `setLoadingState(isLoading)`. -/
def setLoadingState (s : State) (isLoading : Bool) : State :=
  if isLoading then { s with loading := true, generateLabel := "Generating...".toList }
  else { s with loading := false, generateLabel := "Generate Content".toList }

/-- Model of `clearResults()`. -/
def clearResults (s : State) : State :=
  { s with
    speaking := false
    outputText := []
    tabs := []
    generatedVersions := []
    readabilityText := "0%".toList
    engagementText := "0%".toList
    humanLikenessText := "0%".toList
    shapeTargets := [.ofNat 0, .ofNat 0, .ofNat 0]
    badges := []
    justificationHtml := []
    justificationHidden := true
    videoContainerHidden := true
    videoSrc := [] }

/-- The tab button `displayResults` creates for the version at `index`. -/
def makeTab (index : Nat) (version : Version) : Tab where
  label := "Version ".toList ++ decimal (index + 1)
  index := index
  virality :=
    match version.virality_score with
    | some n => if n.isZero then none else some ("🔥 ".toList ++ numberToString n)
    | none => none
  active := false

/-- Model of `displayResults(versions)`. -/
def displayResults (eng : Engine) (s : State) (versions : List Version) : Outcome :=
  let s1 : State := { s with
    generatedVersions := versions
    tabs := versions.enum.map fun p => makeTab p.1 p.2 }
  if versions.length > 0 then showVersion eng s1 0 else ⟨s1, none⟩

/-- The outcome of a `fetch` call whose successful body parses to an `α`. -/
inductive FetchResult (α : Type) where
  /-- The promise of `fetch` rejects with an error of the given message. -/
  | rejected (message : JsString)
  /-- A response with `ok` false; `body` is `none` when `response.json()` rejects. -/
  | failure (status : Nat) (body : Option Json)
  /-- A response with `ok` true whose `response.json()` rejects with the given message. -/
  | unparsable (message : JsString)
  /-- A response with `ok` true and the given parsed body. -/
  | success (data : α)

/-- The text of `errorData.detail` in a template literal, `errorData` being the
parsed body of a failed response or the given default detail when the body
does not parse. -/
def errorDetail (eng : Engine) (defaultDetail : JsString) (body : Option Json) :
    Except JsString JsString :=
  match body with
  | none => .ok defaultDetail
  | some errorData =>
    match getProp eng "detail".toList errorData with
    | .error e => .error e
    | .ok detail => toStrVal eng detail

/-- The `catch` and `finally` blocks of `generateContent`. -/
def generateCatch (s : State) (message : JsString) : State :=
  setLoadingState { s with outputText := "An error occurred.\n\nDetails: ".toList ++ message } false

/-- Model of `generateContent()` run with no other handler between its `await`
points; `result` is the outcome of the `/generate` call, `data.versions` of a
successful body being `none` when absent. -/
def generateContent (eng : Engine) (s : State) (result : FetchResult (Option (List Version))) :
    State :=
  if s.loading then s
  else if (jsTrim s.ideaInput).isEmpty || (jsTrim s.brandVoiceInput).isEmpty then
    { s with alerts := s.alerts ++ ["Please fill in the idea and brand voice fields.".toList] }
  else
    let s1 := clearResults (setLoadingState s true)
    let s2 : State := { s1 with requests := s1.requests ++ ["/generate".toList] }
    match result with
    | .rejected message => generateCatch s2 message
    | .failure _ body =>
      match errorDetail eng "An unknown error occurred on the server.".toList body with
      | .error e => generateCatch s2 e
      | .ok detail => generateCatch s2 detail
    | .unparsable message => generateCatch s2 message
    | .success (some (v :: vs)) =>
      match displayResults eng s2 (v :: vs) with
      | ⟨s3, some e⟩ => generateCatch s3 e
      | ⟨s3, none⟩ => setLoadingState s3 false
    | .success _ =>
      generateCatch s2 "Received an empty or invalid versions array from the server.".toList

/-- The `finally` block of the submit-refine handler. -/
def refineFinally (s : State) (originalText : JsString) : State :=
  { s with
    submitRefineLabel := originalText
    submitRefineDisabled := false
    cancelRefineDisabled := false
    refineContainerHidden := true
    ttsControlsHidden := false
    scoreSectionHidden := false
    refineInput := [] }

/-- The `catch` and `finally` blocks of the submit-refine handler. -/
def refineCatch (s : State) (originalText message : JsString) : State :=
  refineFinally
    { s with alerts := s.alerts ++ ["Could not refine content. \nDetails: ".toList ++ message] }
    originalText

/-- Model of the click handler of `submitRefineBtn` run with no other handler
between its `await` points; `result` is the outcome of the `/refine` call. -/
def submitRefine (eng : Engine) (s : State) (result : FetchResult Version) : Outcome :=
  if s.refineInput.isEmpty || (jsTrim s.refineInput).isEmpty || s.submitRefineDisabled then
    ⟨s, none⟩
  else
    let originalText := s.submitRefineLabel
    let s1 : State := { s with
      submitRefineLabel := "Refining...".toList
      submitRefineDisabled := true
      cancelRefineDisabled := true }
    if s1.activeVersionIndex < 0 ∨ s1.activeVersionIndex ≥ s1.generatedVersions.length then
      ⟨s1, some (eng.undefinedReadMessage "content".toList)⟩
    else
      let s2 : State := { s1 with requests := s1.requests ++ ["/refine".toList] }
      match result with
      | .rejected message => ⟨refineCatch s2 originalText message, none⟩
      | .failure status body =>
        match errorDetail eng "An unknown error occurred.".toList body with
        | .error e => ⟨refineCatch s2 originalText e, none⟩
        | .ok detail =>
          ⟨refineCatch s2 originalText
            ("HTTP error! Status: ".toList ++ decimal status ++ " - ".toList ++ detail), none⟩
      | .unparsable message => ⟨refineCatch s2 originalText message, none⟩
      | .success newVersion =>
        let s3 : State := { s2 with
          generatedVersions := s2.generatedVersions.set s2.activeVersionIndex.toNat newVersion }
        match showVersion eng s3 s3.activeVersionIndex with
        | ⟨s4, some e⟩ => ⟨refineCatch s4 originalText e, none⟩
        | ⟨s4, none⟩ => ⟨refineFinally s4 originalText, none⟩

/-! ## Handlers between their `await` points

`generateContent` and `submitRefine` above run a handler with nothing in
between its `await` points.  On the page other handlers run while a request is
in flight: the tabs and the Generate button are not blocked by a pending
refine.  Each handler is therefore also given in two parts, the run up to its
`fetch` and the run from the settled call on (nothing the handler does between
its two `await`s reads or writes the state), and a `Page` interleaves them. -/

/-- How the run of `generateContent` up to its `fetch` ends: it returned, or the
`/generate` call is in flight. -/
inductive GenerateStarted where
  | returned (s : State)
  | awaiting (s : State)

/-- Lines 272-288 of `generateContent`: the guards, `setLoadingState(true)`,
`clearResults()` and the call of `fetch`. -/
def generateContentStart (s : State) : GenerateStarted :=
  if s.loading then .returned s
  else if (jsTrim s.ideaInput).isEmpty || (jsTrim s.brandVoiceInput).isEmpty then
    .returned
      { s with alerts := s.alerts ++ ["Please fill in the idea and brand voice fields.".toList] }
  else
    let s1 := clearResults (setLoadingState s true)
    .awaiting { s1 with requests := s1.requests ++ ["/generate".toList] }

/-- Lines 293-309 of `generateContent`, run in the state `s` the page is in when
the `/generate` call has settled with `result`. -/
def generateContentResume (eng : Engine) (s : State)
    (result : FetchResult (Option (List Version))) : State :=
  match result with
  | .rejected message => generateCatch s message
  | .failure _ body =>
    match errorDetail eng "An unknown error occurred on the server.".toList body with
    | .error e => generateCatch s e
    | .ok detail => generateCatch s detail
  | .unparsable message => generateCatch s message
  | .success (some (v :: vs)) =>
    match displayResults eng s (v :: vs) with
    | ⟨s3, some e⟩ => generateCatch s3 e
    | ⟨s3, none⟩ => setLoadingState s3 false
  | .success _ =>
    generateCatch s "Received an empty or invalid versions array from the server.".toList

/-- How the run of the submit-refine handler up to its `fetch` ends: it
returned, it threw, or the `/refine` call is in flight and the handler holds
the local `originalText`. -/
inductive RefineStarted where
  | returned (s : State)
  | threw (s : State) (message : JsString)
  | awaiting (s : State) (originalText : JsString)

/-- Lines 161-187 of the submit-refine handler: the guard, the disabling of the
buttons, the reading of `generatedVersions[activeVersionIndex].content` and the
call of `fetch`. -/
def submitRefineStart (eng : Engine) (s : State) : RefineStarted :=
  if s.refineInput.isEmpty || (jsTrim s.refineInput).isEmpty || s.submitRefineDisabled then
    .returned s
  else
    let s1 : State := { s with
      submitRefineLabel := "Refining...".toList
      submitRefineDisabled := true
      cancelRefineDisabled := true }
    if s1.activeVersionIndex < 0 ∨ s1.activeVersionIndex ≥ s1.generatedVersions.length then
      .threw s1 (eng.undefinedReadMessage "content".toList)
    else
      .awaiting { s1 with requests := s1.requests ++ ["/refine".toList] } s.submitRefineLabel

/-- Model of `generatedVersions[index] = newVersion`: an element in range is
replaced, an index equal to the length appends.  Any other index leaves an
array with holes or with a property that is no element, which a list of
versions does not represent: `none`. -/
def assignVersion (versions : List Version) (index : Int) (newVersion : Version) :
    Option (List Version) :=
  if 0 ≤ index ∧ index < versions.length then some (versions.set index.toNat newVersion)
  else if index = versions.length then some (versions ++ [newVersion])
  else none

/-- Lines 188-206 of the submit-refine handler, run in the state `s` the page is
in when the `/refine` call has settled with `result`: `activeVersionIndex` and
`generatedVersions` are read from `s`. -/
def submitRefineResume (eng : Engine) (s : State) (originalText : JsString)
    (result : FetchResult Version) : Option State :=
  match result with
  | .rejected message => some (refineCatch s originalText message)
  | .failure status body =>
    match errorDetail eng "An unknown error occurred.".toList body with
    | .error e => some (refineCatch s originalText e)
    | .ok detail =>
      some (refineCatch s originalText
        ("HTTP error! Status: ".toList ++ decimal status ++ " - ".toList ++ detail))
  | .unparsable message => some (refineCatch s originalText message)
  | .success newVersion =>
    match assignVersion s.generatedVersions s.activeVersionIndex newVersion with
    | none => none
    | some versions =>
      match showVersion eng { s with generatedVersions := versions } s.activeVersionIndex with
      | ⟨s4, some e⟩ => some (refineCatch s4 originalText e)
      | ⟨s4, none⟩ => some (refineFinally s4 originalText)

/-- The page between two events: its state and the calls in flight. -/
structure Page where
  state : State
  /-- Whether a `/generate` call is in flight. -/
  generatePending : Bool
  /-- The `originalText` held by the submit-refine handler whose `/refine` call
  is in flight, if there is one. -/
  refinePending : Option JsString

/-- What happens on the page: a click on Generate, on the submit-refine button
or on the tab of a version, and the settling of a call in flight. -/
inductive Event where
  | clickGenerate
  | generateSettles (result : FetchResult (Option (List Version)))
  | clickSubmitRefine
  | refineSettles (result : FetchResult Version)
  | clickTab (index : Int)

/-- The page after an event; `none` when no such call is in flight, or when the
list of versions would get holes. -/
def Page.step (eng : Engine) (p : Page) : Event → Option Page
  | .clickGenerate =>
    match generateContentStart p.state with
    | .returned s => some { p with state := s }
    | .awaiting s => some { p with state := s, generatePending := true }
  | .generateSettles result =>
    if p.generatePending then
      some { p with state := generateContentResume eng p.state result, generatePending := false }
    else none
  | .clickSubmitRefine =>
    match submitRefineStart eng p.state with
    | .returned s => some { p with state := s }
    | .threw s _ => some { p with state := s }
    | .awaiting s originalText => some { p with state := s, refinePending := some originalText }
  | .refineSettles result =>
    match p.refinePending with
    | none => none
    | some originalText =>
      match submitRefineResume eng p.state originalText result with
      | none => none
      | some s => some { p with state := s, refinePending := none }
  | .clickTab index => some { p with state := (showVersion eng p.state index).state }

/-- The page after a sequence of events. -/
def Page.run (eng : Engine) : Page → List Event → Option Page
  | p, [] => some p
  | p, e :: rest =>
    match Page.step eng p e with
    | none => none
    | some q => Page.run eng q rest

/-- A page in the given state with no call in flight. -/
def Page.idle (s : State) : Page := ⟨s, false, none⟩

/-! ## Specification vocabulary -/

/-- The content is a thread of the tweets `ts`: an object whose `thread` is the
list of the texts `ts` and which does not populate both `caption` and `script`
(the shape `showVersion` tests first). -/
def IsThread (content : Json) (ts : List JsString) : Prop :=
  prop "thread".toList content = some (.arr (ts.map .str)) ∧
    ¬ (truthyVal (prop "caption".toList content) = true ∧
       truthyVal (prop "script".toList content) = true)

/-- The block of the tweet `t` at position `i` (counted from 0) of a thread of
`total` tweets: the header `[i+1/total]`, a line break, the tweet and a blank line. -/
def threadBlock (total i : Nat) (t : JsString) : JsString :=
  '[' :: decimal (i + 1) ++ '/' :: decimal total ++ ']' :: '\n' :: t ++ "\n\n".toList

/-- The concatenation of the blocks of the tweets `ts`, the first of which is at
position `i`. -/
def threadBlocksFrom (total : Nat) : Nat → List JsString → JsString
  | _, [] => []
  | i, t :: rest => threadBlock total i t ++ threadBlocksFrom total (i + 1) rest

/-- The concatenation of `[i/N]\n` + `t_i` + `\n\n` for `i = 1..N`. -/
def threadBlocks (ts : List JsString) : JsString := threadBlocksFrom ts.length 0 ts

/-- The badge of a tweet that is the text `t`, `lineCount` being the number of
line breaks of the text formatted before it. -/
def stringBadge (lineCount : Nat) (t : JsString) : Badge where
  textContent := decimal (jsLength t) ++ " / 280".toList
  top := topOf lineCount
  overLimit := decide (jsLength t > 280)

/-- The badges of the tweets `ts`, the first of which is at position `i`, `acc`
being the text formatted before it. -/
def threadBadgesFrom (total : Nat) : Nat → JsString → List JsString → List Badge
  | _, _, [] => []
  | i, acc, t :: rest =>
    stringBadge (countNewlines acc) t ::
      threadBadgesFrom total (i + 1) (acc ++ threadBlock total i t) rest

/-- The operations on the version store: `clearResults()`, `displayResults(versions)`,
`showVersion(index)`, and a refine whose `/refine` call succeeds with
`newVersion`, submitted with the text `instruction` in `refineInput`. -/
inductive Op where
  | clearResults
  | displayResults (versions : List Version)
  | showVersion (index : Int)
  | refine (instruction : JsString) (newVersion : Version)

/-- The state an operation leaves behind. -/
def step (eng : Engine) (s : State) : Op → State
  | .clearResults => clearResults s
  | .displayResults versions => (displayResults eng s versions).state
  | .showVersion index => (showVersion eng s index).state
  | .refine instruction newVersion =>
    (submitRefine eng { s with refineInput := instruction } (.success newVersion)).state

/-- The state reached by a sequence of operations. -/
def run (eng : Engine) (s : State) (ops : List Op) : State := ops.foldl (step eng) s

/-- The active index is in `[0, length)` when the version list is not empty. -/
def ActiveIndexValid (s : State) : Prop :=
  s.generatedVersions ≠ [] →
    0 ≤ s.activeVersionIndex ∧ s.activeVersionIndex < s.generatedVersions.length

/-- A state that holds the given versions and is otherwise the initial one. -/
def stateOf (versions : List Version) : State :=
  { State.initial with generatedVersions := versions }

/-- A version of the given content with scores 0 and no justification. -/
def versionOf (content : Json) : Version :=
  ⟨content, ⟨.ofNat 0, .ofNat 0, .ofNat 0⟩, none, none⟩

/-- An engine for evaluating the definitions: the messages are those of V8;
`stringGreater` is exact on strings of decimal digits and answers `false` on
every other string. -/
def sampleEngine : Engine where
  stringGreater := fun s n =>
    !s.isEmpty && s.all Char.isDigit &&
      decide ((s.foldl (fun a c => 10 * a + (c.toNat - 48)) 0 : Int) > n)
  nullReadMessage := fun p => "Cannot read properties of null (reading \x27".toList ++ p ++ "\x27)".toList
  undefinedReadMessage := fun p =>
    "Cannot read properties of undefined (reading \x27".toList ++ p ++ "\x27)".toList
  toPrimitiveMessage := "Cannot convert object to primitive value".toList

/-! ## Voice selection -/

/-- A `SpeechSynthesisVoice`, by the two properties the script reads. -/
structure Voice where
  name : JsString
  lang : JsString
deriving DecidableEq

/-- The state variables `maleVoice` and `femaleVoice` (`none` for `null` or
`undefined`) and whether each voice button has `style.display` set to `none`. -/
structure VoiceState where
  maleVoice : Option Voice
  femaleVoice : Option Voice
  maleVoiceBtnHidden : Bool
  femaleVoiceBtnHidden : Bool
deriving DecidableEq

/-- Model of `s.includes(pattern)`. -/
def jsIncludes (s pattern : JsString) : Bool := decide (pattern <:+: s)

/-- Model of `s.startsWith(pattern)`. -/
def jsStartsWith (s pattern : JsString) : Bool := decide (pattern <+: s)

/-- The callback of `voices.find` for `maleVoice` (line 53); `toLowerCase` is
the engine's `String.prototype.toLowerCase`. -/
def isMaleVoice (toLowerCase : JsString → JsString) (voice : Voice) : Bool :=
  jsStartsWith voice.lang "en".toList &&
    (jsIncludes (toLowerCase voice.name) "male".toList || jsIncludes voice.name "David".toList ||
      jsIncludes voice.name "Mark".toList)

/-- The callback of `voices.find` for `femaleVoice` (line 54). -/
def isFemaleVoice (toLowerCase : JsString → JsString) (voice : Voice) : Bool :=
  jsStartsWith voice.lang "en".toList &&
    (jsIncludes (toLowerCase voice.name) "female".toList || jsIncludes voice.name "Zira".toList ||
      jsIncludes voice.name "Susan".toList)

/-- Model of `findAndSetVoices()`; `voices` is the list `synth.getVoices()` returns. -/
def findAndSetVoices (toLowerCase : JsString → JsString) (vs : VoiceState)
    (voices : List Voice) : VoiceState :=
  if voices.length = 0 then vs
  else
    let maleVoice := voices.find? (isMaleVoice toLowerCase)
    let femaleVoice := voices.find? (isFemaleVoice toLowerCase)
    { maleVoice := maleVoice
      femaleVoice := femaleVoice
      maleVoiceBtnHidden := if maleVoice.isNone then true else vs.maleVoiceBtnHidden
      femaleVoiceBtnHidden := if femaleVoice.isNone then true else vs.femaleVoiceBtnHidden }

/-- The voice state in which the script starts: no voice, both buttons shown. -/
def VoiceState.initial : VoiceState := ⟨none, none, false, false⟩

/-- Lower-casing of the letters `A` to `Z`, which is `toLowerCase` on ASCII text. -/
def asciiLowerCase (s : JsString) : JsString :=
  s.map fun c => if 65 ≤ c.toNat ∧ c.toNat ≤ 90 then Char.ofNat (c.toNat + 32) else c

/-! ## Trimming -/

theorem jsTrim_eq_self (x c : Char) (m : JsString) (hx : isTrimChar x = false)
    (hc : isTrimChar c = false) : jsTrim (x :: (m ++ [c])) = x :: (m ++ [c]) := by
  unfold jsTrim
  rw [List.dropWhile_cons_of_neg (by simp [hx])]
  have h := List.rdropWhile_concat_neg isTrimChar (x :: m) c (by simp [hc])
  simpa using h

theorem digitChar_not_trim (d : Nat) : isTrimChar (digitChar d) = false := by
  unfold digitChar
  have h : d % 10 < 10 := Nat.mod_lt _ (by decide)
  generalize d % 10 = k at h
  interval_cases k <;> decide

theorem decimalAux_snoc (fuel n : Nat) :
    ∃ m, decimalAux (fuel + 1) n = m ++ [digitChar n] := by
  unfold decimalAux
  split
  · exact ⟨[], rfl⟩
  · exact ⟨_, rfl⟩

theorem decimal_snoc (n : Nat) : ∃ m, decimal n = m ++ [digitChar n] :=
  decimalAux_snoc n n

theorem numberToString_samples :
    numberToString (.finite false 280 0) = "280".toList ∧
      numberToString (.finite true 875 (-1)) = "-87.5".toList ∧
      numberToString (.finite false 1 (-6)) = "0.000001".toList ∧
      numberToString (.finite false 15 (-8)) = "1.5e-7".toList ∧
      numberToString (.finite false 12345678901234568 4) = "123456789012345680000".toList ∧
      numberToString (.finite false 1000 18) = "1e+21".toList ∧
      jsonStringify (.obj [("score".toList, .num (.finite false 875 (-1))),
          ("views".toList, .num (.finite false 1 21))]) =
        "\x7b\n  \"score\": 87.5,\n  \"views\": 1e+21\n\x7d".toList := by
  decide

theorem decimalAux_noTrim (fuel : Nat) :
    ∀ (n : Nat), ∀ c ∈ decimalAux fuel n, isTrimChar c = false := by
  induction fuel with
  | zero => intro n c hc; simp [decimalAux] at hc
  | succ fuel ih =>
    intro n c hc
    unfold decimalAux at hc
    split at hc
    · rw [List.mem_singleton] at hc
      rw [hc]
      exact digitChar_not_trim n
    · rcases List.mem_append.mp hc with h | h
      · exact ih _ c h
      · rw [List.mem_singleton] at h
        rw [h]
        exact digitChar_not_trim n

theorem decimal_noTrim (n : Nat) : ∀ c ∈ decimal n, isTrimChar c = false :=
  decimalAux_noTrim (n + 1) n

theorem decimal_ne_nil (n : Nat) : decimal n ≠ [] := by
  obtain ⟨m, hm⟩ := decimal_snoc n
  rw [hm]
  simp

theorem positiveText_noTrim (digits : Nat) (exponent : Int) :
    ∀ c ∈ positiveText digits exponent, isTrimChar c = false := by
  intro c hc
  have hds := decimal_noTrim digits
  have hzero : isTrimChar '0' = false := by decide
  have hdot : isTrimChar '.' = false := by decide
  unfold positiveText at hc
  simp only at hc
  split at hc
  · rcases List.mem_append.mp hc with h | h
    · exact hds c h
    · rw [List.eq_of_mem_replicate h]; exact hzero
  · split at hc
    · rcases List.mem_append.mp hc with h | h
      · exact hds c (List.mem_of_mem_take h)
      · rcases List.mem_cons.mp h with h | h
        · rw [h]; exact hdot
        · exact hds c (List.mem_of_mem_drop h)
    · have hexp : ∀ c ∈ ('e' :: (if exponent + ((decimal digits).length : Int) - 1 < 0
            then '-' else '+') ::
          decimal (exponent + ((decimal digits).length : Int) - 1).natAbs),
          isTrimChar c = false := by
        intro c hc
        rcases List.mem_cons.mp hc with h | h
        · rw [h]; decide
        · rcases List.mem_cons.mp h with h | h
          · rw [h]; split <;> decide
          · exact decimal_noTrim _ c h
      split at hc
      · rcases List.mem_cons.mp hc with h | h
        · rw [h]; exact hzero
        · rcases List.mem_cons.mp h with h | h
          · rw [h]; exact hdot
          · rcases List.mem_append.mp h with h | h
            · rw [List.eq_of_mem_replicate h]; exact hzero
            · exact hds c h
      · split at hc
        · exact hexp c hc
        · rename_i d hd
          rcases List.mem_cons.mp hc with h | h
          · rw [h]; exact hds d (by rw [hd]; exact List.mem_singleton.mpr rfl)
          · exact hexp c h
        · rename_i d rest hnot hd
          rcases List.mem_cons.mp hc with h | h
          · rw [h]; exact hds d (by rw [hd]; exact List.mem_cons_self _ _)
          · rcases List.mem_cons.mp h with h | h
            · rw [h]; exact hdot
            · rcases List.mem_append.mp h with h | h
              · exact hds c (by rw [hd]; exact List.mem_cons_of_mem _ h)
              · exact hexp c h

theorem positiveText_ne_nil (digits : Nat) (exponent : Int) :
    positiveText digits exponent ≠ [] := by
  have hds := decimal_ne_nil digits
  unfold positiveText
  simp only
  split
  · simp [hds]
  · split
    · simp
    · split
      · simp
      · split <;> simp

theorem numberToString_noTrim (x : JsNumber) :
    numberToString x ≠ [] ∧ ∀ c ∈ numberToString x, isTrimChar c = false := by
  cases x with
  | infinite negative => cases negative <;> exact ⟨by decide, by decide⟩
  | finite negative digits exponent =>
    cases digits with
    | zero => exact ⟨by simp [numberToString], by simp [numberToString]; decide⟩
    | succ d =>
      constructor
      · simp [numberToString, positiveText_ne_nil]
      · intro c hc
        simp only [numberToString] at hc
        rcases List.mem_append.mp hc with h | h
        · split at h
          · rw [List.mem_singleton] at h
            rw [h]; decide
          · simp at h
        · exact positiveText_noTrim _ _ c h

theorem snoc_of_noTrim (l : JsString) (hne : l ≠ [])
    (h : ∀ c ∈ l, isTrimChar c = false) : ∃ m c, l = m ++ [c] ∧ isTrimChar c = false :=
  ⟨l.dropLast, l.getLast hne, (List.dropLast_append_getLast hne).symm,
    h _ (List.getLast_mem hne)⟩

theorem jsonStringify_snoc (v : Json) :
    ∃ m c, jsonStringify v = m ++ [c] ∧ isTrimChar c = false := by
  unfold jsonStringify
  cases v with
  | null => exact ⟨"nul".toList, 'l', by simp [stringifyAt], by decide⟩
  | bool b =>
    cases b
    · exact ⟨"fals".toList, 'e', by simp [stringifyAt], by decide⟩
    · exact ⟨"tru".toList, 'e', by simp [stringifyAt], by decide⟩
  | num x =>
    cases x with
    | infinite negative => exact ⟨"nul".toList, 'l', by simp [stringifyAt], by decide⟩
    | finite negative digits exponent =>
      obtain ⟨hne, hall⟩ := numberToString_noTrim (.finite negative digits exponent)
      simpa [stringifyAt] using snoc_of_noTrim _ hne hall
  | str s => exact ⟨'"' :: s.flatMap quoteChar, '"', by simp [stringifyAt, quoteJson], by decide⟩
  | arr items =>
    cases items with
    | nil => exact ⟨"[".toList, ']', by simp [stringifyAt], by decide⟩
    | cons x rest => exact ⟨_, ']', by simp only [stringifyAt]; rfl, by decide⟩
  | obj fields =>
    cases fields with
    | nil => exact ⟨"\x7b".toList, '}', by simp [stringifyAt], by decide⟩
    | cons f rest => exact ⟨_, '}', by simp only [stringifyAt]; rfl, by decide⟩

theorem jsTrim_fallback (v : Json) :
    jsTrim (fallbackLabel ++ jsonStringify v) = fallbackLabel ++ jsonStringify v := by
  obtain ⟨m, c, hm, hc⟩ := jsonStringify_snoc v
  rw [hm]
  have h := jsTrim_eq_self 'E' c ("rror: Received unexpected content format.\n\n".toList ++ m)
    (by decide) hc
  simpa [fallbackLabel] using h

/-! ## `showVersion` past its guard -/

theorem showVersion_of_getElem (eng : Engine) (s : State) (i : Nat) (v : Version)
    (hv : s.generatedVersions[i]? = some v) :
    showVersion eng s i = renderVersion eng s i v := by
  have hlt : i < s.generatedVersions.length := by
    by_contra h
    rw [List.getElem?_eq_none (by omega)] at hv
    cases hv
  unfold showVersion
  rw [if_neg (by omega)]
  simp [hv]

theorem renderVersion_badges (eng : Engine) (s : State) (index : Int) (v : Version) :
    (renderVersion eng s index v).state.badges = (renderContent eng v.content).badges := by
  unfold renderVersion
  dsimp only
  split <;> rfl

theorem renderVersion_thrown (eng : Engine) (s : State) (index : Int) (v : Version) :
    (renderVersion eng s index v).thrown = (renderContent eng v.content).thrown := by
  unfold renderVersion
  dsimp only
  split <;> simp_all

theorem renderVersion_versions (eng : Engine) (s : State) (index : Int) (v : Version) :
    (renderVersion eng s index v).state.generatedVersions = s.generatedVersions ∧
      (renderVersion eng s index v).state.activeVersionIndex = index := by
  unfold renderVersion
  dsimp only
  split <;> exact ⟨rfl, rfl⟩

theorem renderVersion_outputText (eng : Engine) (s : State) (index : Int) (v : Version)
    (h : (renderContent eng v.content).thrown = none) :
    (renderVersion eng s index v).state.outputText =
      jsTrim (renderContent eng v.content).formatted := by
  unfold renderVersion
  simp only [h]

/-! ## Threads of texts -/

theorem threadLoop_texts (eng : Engine) (total : Nat) (ts : List JsString) :
    ∀ (i : Nat) (acc : JsString) (bs : List Badge),
      threadLoop eng total (ts.map Json.str) i acc bs =
        ⟨acc ++ threadBlocksFrom total i ts, bs ++ threadBadgesFrom total i acc ts, none⟩ := by
  induction ts with
  | nil => intro i acc bs; simp [threadLoop, threadBlocksFrom, threadBadgesFrom]
  | cons t rest ih =>
    intro i acc bs
    simp only [List.map_cons, threadLoop, toStr, charLengthOf, lengthText, lengthOver, ih,
      threadBlocksFrom, threadBadgesFrom, threadBlock, stringBadge, X_CHAR_LIMIT]
    have h280 : decimal 280 = ['2', '8', '0'] := by decide
    simp [h280]

theorem renderContent_thread (eng : Engine) (content : Json) (ts : List JsString)
    (h : IsThread content ts) :
    renderContent eng content =
      ⟨threadBlocks ts, threadBadgesFrom ts.length 0 [] ts, none⟩ := by
  obtain ⟨hthread, hcs⟩ := h
  cases content with
  | obj fields =>
    have hc : (truthyVal (prop "caption".toList (Json.obj fields)) &&
        truthyVal (prop "script".toList (Json.obj fields))) = false := by
      cases h1 : truthyVal (prop "caption".toList (Json.obj fields)) <;>
        cases h2 : truthyVal (prop "script".toList (Json.obj fields)) <;> simp_all
    simp only [renderContent, truthy, Bool.true_and, hc, hthread]
    simpa [threadBlocks] using threadLoop_texts eng ts.length ts 0 [] []
  | null => simp [prop] at hthread
  | bool b => simp [prop] at hthread
  | num n => simp [prop] at hthread
  | str t => simp [prop] at hthread
  | arr items => simp [prop] at hthread

theorem threadBadgesFrom_length (total : Nat) (ts : List JsString) :
    ∀ (i : Nat) (acc : JsString), (threadBadgesFrom total i acc ts).length = ts.length := by
  induction ts with
  | nil => intro i acc; rfl
  | cons t rest ih => intro i acc; simp [threadBadgesFrom, ih]

theorem threadBadgesFrom_getElem? (total : Nat) (ts : List JsString) :
    ∀ (i : Nat) (acc : JsString) (k : Nat) (hk : k < ts.length),
      ∃ lineCount, (threadBadgesFrom total i acc ts)[k]? = some (stringBadge lineCount ts[k]) := by
  induction ts with
  | nil => intro i acc k hk; simp at hk
  | cons t rest ih =>
    intro i acc k hk
    cases k with
    | zero => exact ⟨countNewlines acc, by simp [threadBadgesFrom]⟩
    | succ k =>
      obtain ⟨lc, h⟩ := ih (i + 1) (acc ++ threadBlock total i t) k (by simpa using hk)
      exact ⟨lc, by simpa [threadBadgesFrom] using h⟩

theorem threadBlocksFrom_eq_flatMap (total : Nat) (ts : List JsString) :
    ∀ i : Nat, threadBlocksFrom total i ts =
      (ts.enumFrom i).flatMap fun p => threadBlock total p.1 p.2 := by
  induction ts with
  | nil => intro i; rfl
  | cons t rest ih => intro i; simp [threadBlocksFrom, List.enumFrom_cons, ih]

theorem renderContent_text (eng : Engine) (t : JsString) :
    renderContent eng (.str t) = ⟨t, [], none⟩ := rfl

theorem renderContent_fallback (eng : Engine) (content : Json)
    (hstr : ∀ t, content ≠ .str t)
    (hcs : ¬ (truthyVal (prop "caption".toList content) = true ∧
      truthyVal (prop "script".toList content) = true))
    (hth : isArrayVal (prop "thread".toList content) = false) :
    renderContent eng content = ⟨fallbackLabel ++ jsonStringify content, [], none⟩ := by
  have hc : (truthyVal (prop "caption".toList content) &&
      truthyVal (prop "script".toList content)) = false := by
    cases h1 : truthyVal (prop "caption".toList content) <;>
      cases h2 : truthyVal (prop "script".toList content) <;> simp_all
  cases content with
  | str t => exact absurd rfl (hstr t)
  | null => simp [renderContent, truthy]
  | bool b => cases b <;> simp [renderContent, truthy, prop, truthyVal]
  | num n => simp [renderContent, prop, truthyVal]
  | arr items => simp [renderContent, prop, truthyVal]
  | obj fields =>
    simp only [renderContent, truthy, Bool.true_and, hc]
    cases hp : prop "thread".toList (Json.obj fields) with
    | none => simp
    | some w => cases w <;> simp_all [isArrayVal]

theorem renderContent_of_not_str (eng : Engine) (content : Json)
    (h : ∀ s, content ≠ .str s) :
    renderContent eng content =
      if truthy content && truthyVal (prop "caption".toList content) &&
          truthyVal (prop "script".toList content) then
        match toStrVal eng (prop "caption".toList content) with
        | .error e => ⟨[], [], some e⟩
        | .ok caption =>
          match toStrVal eng (prop "script".toList content) with
          | .error e => ⟨[], [], some e⟩
          | .ok script =>
            ⟨"CAPTION:\n".toList ++ caption ++ "\n\n---\n\nSCRIPT:\n".toList ++ script, [], none⟩
      else
        match truthy content, prop "thread".toList content with
        | true, some (.arr tweets) => threadLoop eng tweets.length tweets 0 [] []
        | _, _ => ⟨fallbackLabel ++ jsonStringify content, [], none⟩ := by
  cases content <;> first | rfl | exact absurd rfl (h _)

theorem truthy_of_prop (name : JsString) (content w : Json) (h : prop name content = some w) :
    truthy content = true := by
  cases content <;> simp_all [prop, truthy]

theorem renderContent_captionScript_badges (eng : Engine) (content : Json)
    (hns : ∀ s, content ≠ .str s)
    (hcond : (truthy content && truthyVal (prop "caption".toList content) &&
      truthyVal (prop "script".toList content)) = true) :
    (renderContent eng content).badges = [] := by
  rw [renderContent_of_not_str eng content hns, if_pos hcond]
  generalize toStrVal eng (prop "caption".toList content) = rc
  generalize toStrVal eng (prop "script".toList content) = rs
  cases rc with
  | error e => rfl
  | ok caption => cases rs <;> rfl

theorem renderContent_not_thread_badges (eng : Engine) (content : Json)
    (h : (∃ t, content = .str t) ∨
      (truthyVal (prop "caption".toList content) = true ∧
        truthyVal (prop "script".toList content) = true) ∨
      isArrayVal (prop "thread".toList content) = false) :
    (renderContent eng content).badges = [] := by
  by_cases hstr : ∃ t, content = .str t
  · obtain ⟨t, rfl⟩ := hstr
    rfl
  · have hns : ∀ s, content ≠ .str s := fun s hs => hstr ⟨s, hs⟩
    by_cases hcs : truthyVal (prop "caption".toList content) = true ∧
        truthyVal (prop "script".toList content) = true
    · have htr : truthy content = true := by
        cases hp : prop "caption".toList content with
        | none => rw [hp] at hcs; simp [truthyVal] at hcs
        | some w => exact truthy_of_prop _ _ _ hp
      exact renderContent_captionScript_badges eng content hns (by rw [htr, hcs.1, hcs.2]; rfl)
    · rcases h with h | h | h
      · exact absurd h hstr
      · exact absurd h hcs
      · rw [renderContent_fallback eng content hns hcs h]

/-! ## Version store -/

theorem showVersion_store (eng : Engine) (s : State) (index : Int) :
    (showVersion eng s index).state.generatedVersions = s.generatedVersions ∧
      ((showVersion eng s index).state.activeVersionIndex = s.activeVersionIndex ∨
        ((showVersion eng s index).state.activeVersionIndex = index ∧
          0 ≤ index ∧ index < s.generatedVersions.length)) := by
  unfold showVersion
  split
  · exact ⟨rfl, Or.inl rfl⟩
  · rename_i hg
    split
    · exact ⟨rfl, Or.inl rfl⟩
    · rename_i v hv
      obtain ⟨h1, h2⟩ := renderVersion_versions eng s index v
      exact ⟨h1, Or.inr ⟨h2, by omega, by omega⟩⟩

theorem showVersion_in_range (eng : Engine) (s : State) (index : Int)
    (h0 : 0 ≤ index) (h1 : index < s.generatedVersions.length) :
    (showVersion eng s index).state.activeVersionIndex = index := by
  have hlt : index.toNat < s.generatedVersions.length := by omega
  have hv : s.generatedVersions[index.toNat]? = some s.generatedVersions[index.toNat] :=
    List.getElem?_eq_getElem hlt
  have hcast : ((index.toNat : Nat) : Int) = index := Int.toNat_of_nonneg h0
  have h := showVersion_of_getElem eng s index.toNat _ hv
  rw [hcast] at h
  rw [h]
  exact (renderVersion_versions eng s index _).2

theorem showVersion_valid (eng : Engine) (s : State) (index : Int) (h : ActiveIndexValid s) :
    ActiveIndexValid (showVersion eng s index).state := by
  obtain ⟨hl, hi⟩ := showVersion_store eng s index
  intro hne
  rw [hl] at hne ⊢
  rcases hi with hi | ⟨hi, h0, h1⟩
  · rw [hi]; exact h hne
  · rw [hi]; exact ⟨h0, h1⟩

theorem clearResults_valid (s : State) : ActiveIndexValid (clearResults s) :=
  fun hne => absurd rfl hne

theorem displayResults_valid (eng : Engine) (s : State) (versions : List Version) :
    ActiveIndexValid (displayResults eng s versions).state := by
  unfold displayResults
  cases versions with
  | nil => exact fun hne => absurd rfl hne
  | cons v vs =>
    simp only [List.length_cons, gt_iff_lt, Nat.zero_lt_succ, if_true]
    intro hne
    obtain ⟨hl, _⟩ := showVersion_store eng
      { s with generatedVersions := v :: vs,
               tabs := (v :: vs).enum.map fun p => makeTab p.1 p.2 } 0
    rw [showVersion_in_range eng _ 0 (le_refl _) (by simp), hl]
    simp

theorem submitRefine_success_store (eng : Engine) (s : State) (newVersion : Version)
    (h0 : 0 ≤ s.activeVersionIndex)
    (h1 : s.activeVersionIndex < s.generatedVersions.length)
    (hin : jsTrim s.refineInput ≠ []) (hen : s.submitRefineDisabled = false) :
    (submitRefine eng s (.success newVersion)).state.generatedVersions =
        s.generatedVersions.set s.activeVersionIndex.toNat newVersion ∧
      (submitRefine eng s (.success newVersion)).state.activeVersionIndex =
        s.activeVersionIndex := by
  have hne : s.refineInput ≠ [] := by
    intro h
    rw [h] at hin
    exact hin rfl
  have hguard : (s.refineInput.isEmpty || (jsTrim s.refineInput).isEmpty ||
      s.submitRefineDisabled) = false := by
    simp [hen, List.isEmpty_iff, hne, hin]
  unfold submitRefine
  rw [hguard]
  simp only [Bool.false_eq_true, if_false]
  rw [if_neg (by omega)]
  generalize hs3 : ({ s with
      submitRefineLabel := "Refining...".toList
      submitRefineDisabled := true
      cancelRefineDisabled := true
      requests := s.requests ++ ["/refine".toList]
      generatedVersions := s.generatedVersions.set s.activeVersionIndex.toNat newVersion } :
      State) = s3
  have hl3 : s3.generatedVersions = s.generatedVersions.set s.activeVersionIndex.toNat newVersion := by
    rw [← hs3]
  have hi3 : s3.activeVersionIndex = s.activeVersionIndex := by rw [← hs3]
  obtain ⟨hl, _⟩ := showVersion_store eng s3 s3.activeVersionIndex
  have hidx := showVersion_in_range eng s3 s3.activeVersionIndex (by rw [hi3]; exact h0)
    (by rw [hi3, hl3, List.length_set]; exact h1)
  rw [hl3] at hl
  rw [hi3] at hidx
  rw [hi3] at hl
  generalize showVersion eng s3 s.activeVersionIndex = o at hl hidx ⊢
  obtain ⟨st, th⟩ := o
  cases th <;> exact ⟨hl, hidx⟩

theorem submitRefine_valid (eng : Engine) (s : State) (newVersion : Version)
    (h : ActiveIndexValid s) :
    ActiveIndexValid (submitRefine eng s (.success newVersion)).state := by
  by_cases hg : (s.refineInput.isEmpty || (jsTrim s.refineInput).isEmpty ||
      s.submitRefineDisabled) = true
  · unfold submitRefine
    rw [if_pos hg]
    exact h
  · by_cases hr : s.activeVersionIndex < 0 ∨
        s.activeVersionIndex ≥ s.generatedVersions.length
    · unfold submitRefine
      rw [if_neg hg]
      simp only []
      rw [if_pos hr]
      exact h
    · have hin : jsTrim s.refineInput ≠ [] := by
        intro hh
        simp [hh] at hg
      have hen : s.submitRefineDisabled = false := by
        cases hd : s.submitRefineDisabled <;> simp_all
      obtain ⟨hl, hi⟩ := submitRefine_success_store eng s newVersion (by omega) (by omega) hin hen
      intro _
      rw [hl, hi, List.length_set]
      omega

theorem step_valid (eng : Engine) (s : State) (op : Op) (h : ActiveIndexValid s) :
    ActiveIndexValid (step eng s op) := by
  cases op with
  | clearResults => exact clearResults_valid s
  | displayResults versions => exact displayResults_valid eng s versions
  | showVersion index => exact showVersion_valid eng s index h
  | refine instruction newVersion => exact submitRefine_valid eng _ newVersion h

theorem run_valid (eng : Engine) (ops : List Op) :
    ∀ s : State, ActiveIndexValid s → ActiveIndexValid (run eng s ops) := by
  induction ops with
  | nil => intro s h; exact h
  | cons op rest ih => intro s h; exact ih _ (step_valid eng s op h)

/-! ## Voice selection lemmas -/

theorem male_of_female_name (toLowerCase : JsString → JsString) (voice : Voice)
    (hen : jsStartsWith voice.lang "en".toList = true)
    (hfem : jsIncludes (toLowerCase voice.name) "female".toList = true) :
    isMaleVoice toLowerCase voice = true := by
  have hsub : "male".toList <:+: "female".toList := by decide
  have hmale : jsIncludes (toLowerCase voice.name) "male".toList = true := by
    unfold jsIncludes at hfem ⊢
    exact decide_eq_true (hsub.trans (of_decide_eq_true hfem))
  unfold isMaleVoice
  rw [hen, hmale]
  rfl

theorem find?_first_english (p : Voice → Bool) (pre rest : List Voice) (v : Voice)
    (hpre : ∀ u ∈ pre, p u = false) (hv : p v = true) :
    (pre ++ v :: rest).find? p = some v := by
  have hnone : pre.find? p = none :=
    List.find?_eq_none.mpr fun u hu => by rw [hpre u hu]; exact Bool.false_ne_true
  rw [List.find?_append, hnone, List.find?_cons_of_pos _ hv]
  rfl

theorem not_male_of_not_english (toLowerCase : JsString → JsString) (voice : Voice)
    (h : jsStartsWith voice.lang "en".toList = false) :
    isMaleVoice toLowerCase voice = false ∧ isFemaleVoice toLowerCase voice = false := by
  unfold isMaleVoice isFemaleVoice
  rw [h]
  exact ⟨rfl, rfl⟩

/-! ## Caption and script -/

theorem renderContent_captionScript (eng : Engine) (content capv scrv : Json) (c sc : JsString)
    (hcap : prop "caption".toList content = some capv)
    (hscr : prop "script".toList content = some scrv)
    (htc : truthy capv = true) (hts : truthy scrv = true)
    (hc : toStr eng capv = .ok c) (hs : toStr eng scrv = .ok sc) :
    renderContent eng content =
      ⟨"CAPTION:\n".toList ++ c ++ "\n\n---\n\nSCRIPT:\n".toList ++ sc, [], none⟩ := by
  have hns : ∀ t, content ≠ .str t := by
    intro t h
    rw [h] at hcap
    simp [prop] at hcap
  have htr := truthy_of_prop _ _ _ hcap
  have hcond : (truthy content && truthyVal (prop "caption".toList content) &&
      truthyVal (prop "script".toList content)) = true := by
    rw [htr, hcap, hscr]
    simp only [truthyVal, htc, hts]
    rfl
  rw [renderContent_of_not_str eng content hns, if_pos hcond, hcap, hscr]
  simp only [toStrVal, hc, hs]

/-! ## Handlers in two parts -/

theorem generateContent_eq_start_resume (eng : Engine) (s : State)
    (result : FetchResult (Option (List Version))) :
    generateContent eng s result =
      match generateContentStart s with
      | .returned s1 => s1
      | .awaiting s1 => generateContentResume eng s1 result := by
  unfold generateContent generateContentStart
  split
  · rfl
  · split
    · rfl
    · cases result <;> rfl

theorem assignVersion_in_range (versions : List Version) (index : Int) (v : Version)
    (h0 : 0 ≤ index) (h1 : index < versions.length) :
    assignVersion versions index v = some (versions.set index.toNat v) := by
  unfold assignVersion
  rw [if_pos ⟨h0, h1⟩]

theorem submitRefineResume_success_store (eng : Engine) (s : State) (originalText : JsString)
    (v : Version) (h0 : 0 ≤ s.activeVersionIndex)
    (h1 : s.activeVersionIndex < s.generatedVersions.length) :
    ∃ s1, submitRefineResume eng s originalText (.success v) = some s1 ∧
      s1.generatedVersions = s.generatedVersions.set s.activeVersionIndex.toNat v ∧
      s1.activeVersionIndex = s.activeVersionIndex := by
  generalize hs3 : ({ s with
      generatedVersions := s.generatedVersions.set s.activeVersionIndex.toNat v } : State) = s3
  have hl3 : s3.generatedVersions = s.generatedVersions.set s.activeVersionIndex.toNat v := by
    rw [← hs3]
  have hi3 : s3.activeVersionIndex = s.activeVersionIndex := by rw [← hs3]
  obtain ⟨hl, _⟩ := showVersion_store eng s3 s.activeVersionIndex
  have hidx := showVersion_in_range eng s3 s.activeVersionIndex h0
    (by rw [hl3, List.length_set]; exact h1)
  rw [hl3] at hl
  unfold submitRefineResume
  simp only [assignVersion_in_range _ _ v h0 h1, hs3]
  generalize showVersion eng s3 s.activeVersionIndex = o at hl hidx ⊢
  obtain ⟨st, th⟩ := o
  cases th
  · exact ⟨_, rfl, hl, hidx⟩
  · exact ⟨_, rfl, hl, hidx⟩

theorem submitRefine_eq_start_resume (eng : Engine) (s : State) (result : FetchResult Version) :
    (match submitRefineStart eng s with
      | .returned s1 => some (⟨s1, none⟩ : Outcome)
      | .threw s1 message => some ⟨s1, some message⟩
      | .awaiting s1 originalText =>
        (submitRefineResume eng s1 originalText result).map fun s2 => ⟨s2, none⟩) =
      some (submitRefine eng s result) := by
  by_cases hg : (s.refineInput.isEmpty || (jsTrim s.refineInput).isEmpty ||
      s.submitRefineDisabled) = true
  · simp only [submitRefine, submitRefineStart, hg, if_true]
  · by_cases hr : s.activeVersionIndex < 0 ∨
        s.activeVersionIndex ≥ (s.generatedVersions.length : Int)
    · simp only [submitRefine, submitRefineStart, hg, hr, if_true, Bool.false_eq_true, if_false]
    · have h0 : 0 ≤ s.activeVersionIndex := by omega
      have h1 : s.activeVersionIndex < s.generatedVersions.length := by omega
      simp only [submitRefine, submitRefineStart, hg, hr, Bool.false_eq_true, if_false]
      cases result with
      | rejected message => rfl
      | failure status body =>
        simp only [submitRefineResume]
        split <;> rfl
      | unparsable message => rfl
      | success newVersion =>
        simp only [submitRefineResume, assignVersion_in_range _ _ newVersion h0 h1]
        split <;> simp_all

theorem submitRefineStart_awaiting (eng : Engine) (s : State)
    (h0 : 0 ≤ s.activeVersionIndex)
    (h1 : s.activeVersionIndex < s.generatedVersions.length)
    (hin : jsTrim s.refineInput ≠ []) (hen : s.submitRefineDisabled = false) :
    ∃ s1, submitRefineStart eng s = .awaiting s1 s.submitRefineLabel ∧
      s1.generatedVersions = s.generatedVersions ∧
      s1.activeVersionIndex = s.activeVersionIndex := by
  have hne : s.refineInput ≠ [] := by
    intro h
    rw [h] at hin
    exact hin rfl
  have hguard : (s.refineInput.isEmpty || (jsTrim s.refineInput).isEmpty ||
      s.submitRefineDisabled) = false := by
    simp [hen, List.isEmpty_iff, hne, hin]
  unfold submitRefineStart
  rw [hguard]
  simp only [Bool.false_eq_true, if_false]
  rw [if_neg (by omega)]
  exact ⟨_, rfl, rfl, rfl⟩

theorem generateContentStart_awaiting (s : State) (hl : s.loading = false)
    (hi : jsTrim s.ideaInput ≠ []) (ht : jsTrim s.brandVoiceInput ≠ []) :
    ∃ s1, generateContentStart s = .awaiting s1 ∧ s1.generatedVersions = [] := by
  have hguard : ((jsTrim s.ideaInput).isEmpty || (jsTrim s.brandVoiceInput).isEmpty) = false := by
    simp [List.isEmpty_iff, hi, ht]
  unfold generateContentStart
  rw [hl, hguard]
  exact ⟨_, rfl, rfl⟩

theorem generateContentResume_failure (eng : Engine) (s : State) (status : Nat)
    (fields : List (JsString × Json)) (dv : Json) (t : JsString)
    (hd : lookupField "detail".toList fields = some dv) (hs : toStr eng dv = .ok t) :
    (generateContentResume eng s (.failure status (some (.obj fields)))).generatedVersions =
        s.generatedVersions ∧
      (generateContentResume eng s (.failure status (some (.obj fields)))).outputText =
        "An error occurred.\n\nDetails: ".toList ++ t := by
  have hdet : errorDetail eng "An unknown error occurred on the server.".toList
      (some (.obj fields)) = .ok t := by
    simp only [errorDetail, getProp, prop, hd, toStrVal, hs]
  unfold generateContentResume
  simp only [hdet]
  exact ⟨rfl, rfl⟩

/-! ## Claims -/

/-- C1: for every version whose content is a thread of N tweets, `showVersion`
produces exactly N character-count badges, one per tweet in thread order (the
k-th badge shows the length of the k-th tweet), and the k-th badge carries the
over-limit flag if and only if the length of the k-th tweet is greater than 280. -/
theorem showVersion_thread_badges (eng : Engine) (s : State) (i : Nat) (v : Version)
    (ts : List JsString) (hv : s.generatedVersions[i]? = some v) (ht : IsThread v.content ts) :
    (showVersion eng s i).state.badges.length = ts.length ∧
      ∀ (k : Nat) (hk : k < ts.length), ∃ b,
        (showVersion eng s i).state.badges[k]? = some b ∧
        b.textContent = decimal (jsLength ts[k]) ++ " / 280".toList ∧
        (b.overLimit = true ↔ jsLength ts[k] > 280) := by
  rw [showVersion_of_getElem eng s i v hv, renderVersion_badges, renderContent_thread eng _ ts ht]
  refine ⟨threadBadgesFrom_length _ ts 0 [], fun k hk => ?_⟩
  obtain ⟨lc, h⟩ := threadBadgesFrom_getElem? ts.length ts 0 [] k hk
  exact ⟨_, h, rfl, by simp [stringBadge]⟩

/-- Witness of C1: a thread of a two-character tweet and a tweet of 281 characters. -/
theorem showVersion_thread_badges_witness :
    (showVersion sampleEngine (stateOf [versionOf (.obj [("thread".toList,
        .arr (["hi".toList, List.replicate 281 'x'].map .str))])]) (0 : Nat)).state.badges.length
        = ["hi".toList, List.replicate 281 'x'].length ∧
      ∀ (k : Nat) (hk : k < ["hi".toList, List.replicate 281 'x'].length), ∃ b,
        (showVersion sampleEngine (stateOf [versionOf (.obj [("thread".toList,
          .arr (["hi".toList, List.replicate 281 'x'].map .str))])]) (0 : Nat)).state.badges[k]?
          = some b ∧
        b.textContent =
          decimal (jsLength ["hi".toList, List.replicate 281 'x'][k]) ++ " / 280".toList ∧
        (b.overLimit = true ↔ jsLength ["hi".toList, List.replicate 281 'x'][k] > 280) :=
  showVersion_thread_badges sampleEngine _ 0 (versionOf _) ["hi".toList, List.replicate 281 'x']
    rfl ⟨rfl, by decide⟩

/-- C2: for every version whose content is not a string, does not populate both
a caption and a script, and has no thread that is a list, the text displayed by
`showVersion` is the label `Error: Received unexpected content format.`
followed by a blank line and the 2-space-indented JSON serialisation of the
content. -/
theorem showVersion_fallback_text (eng : Engine) (s : State) (i : Nat) (v : Version)
    (hv : s.generatedVersions[i]? = some v)
    (hstr : ∀ t, v.content ≠ .str t)
    (hcs : ¬ (truthyVal (prop "caption".toList v.content) = true ∧
      truthyVal (prop "script".toList v.content) = true))
    (hth : isArrayVal (prop "thread".toList v.content) = false) :
    (showVersion eng s i).state.outputText =
      "Error: Received unexpected content format.".toList ++ "\n\n".toList ++
        jsonStringify v.content := by
  have hr := renderContent_fallback eng v.content hstr hcs hth
  rw [showVersion_of_getElem eng s i v hv, renderVersion_outputText eng s i v (by rw [hr]), hr]
  simpa [fallbackLabel] using jsTrim_fallback v.content

/-- Witness of C2: an object with a caption but no script, a fractional score and
a count of `1e21`. -/
theorem showVersion_fallback_text_witness :
    (showVersion sampleEngine (stateOf [versionOf (.obj [("caption".toList, .str "c".toList),
        ("score".toList, .num (.finite false 875 (-1))),
        ("views".toList, .num (.finite false 1 21))])]) (0 : Nat)).state.outputText =
      "Error: Received unexpected content format.".toList ++ "\n\n".toList ++
        jsonStringify (.obj [("caption".toList, .str "c".toList),
          ("score".toList, .num (.finite false 875 (-1))),
          ("views".toList, .num (.finite false 1 21))]) :=
  showVersion_fallback_text sampleEngine _ 0 (versionOf _) rfl (by intro t h; cases h)
    (by decide) (by decide)

/-- C4: for every version whose content is a thread of N tweets, the text
displayed by `showVersion` is the concatenation, in thread order, of the
blocks `[i/N]`, line break, tweet, blank line (i counted from 1), with the
surrounding white space trimmed. -/
theorem showVersion_thread_text (eng : Engine) (s : State) (i : Nat) (v : Version)
    (ts : List JsString) (hv : s.generatedVersions[i]? = some v) (ht : IsThread v.content ts) :
    (showVersion eng s i).state.outputText =
      jsTrim (ts.enum.flatMap fun p =>
        '[' :: decimal (p.1 + 1) ++ '/' :: decimal ts.length ++ ']' :: '\n' :: p.2 ++
          "\n\n".toList) := by
  have hr := renderContent_thread eng v.content ts ht
  rw [showVersion_of_getElem eng s i v hv, renderVersion_outputText eng s i v (by rw [hr]), hr]
  simp only [threadBlocks, threadBlocksFrom_eq_flatMap, List.enum, threadBlock]

/-- Witness of C4: a thread of two tweets. -/
theorem showVersion_thread_text_witness :
    (showVersion sampleEngine (stateOf [versionOf (.obj [("thread".toList,
        .arr (["one".toList, "two ".toList].map .str))])]) (0 : Nat)).state.outputText =
      jsTrim (["one".toList, "two ".toList].enum.flatMap fun p =>
        '[' :: decimal (p.1 + 1) ++ '/' :: decimal ["one".toList, "two ".toList].length ++
          ']' :: '\n' :: p.2 ++ "\n\n".toList) :=
  showVersion_thread_text sampleEngine _ 0 (versionOf _) ["one".toList, "two ".toList]
    rfl ⟨rfl, by decide⟩

/-- C3, at the input on which it fails: a thread holding `null` makes
`showVersion` throw the `TypeError` of `tweet.length`, and the displayed text
is left as it was. -/
theorem showVersion_null_tweet_throws (eng : Engine) (s : State) (i : Nat) (v : Version)
    (hv : s.generatedVersions[i]? = some v)
    (hc : v.content = .obj [("thread".toList, .arr [.null])]) :
    (showVersion eng s i).thrown = some (eng.nullReadMessage "length".toList) ∧
      (showVersion eng s i).state.outputText = s.outputText := by
  rw [showVersion_of_getElem eng s i v hv]
  unfold renderVersion
  rw [hc]
  exact ⟨rfl, rfl⟩

/-- Witness of the failure of C3. -/
theorem showVersion_null_tweet_throws_witness :
    (showVersion sampleEngine
        (stateOf [versionOf (.obj [("thread".toList, .arr [.null])])]) (0 : Nat)).thrown =
        some (sampleEngine.nullReadMessage "length".toList) ∧
      (showVersion sampleEngine
        (stateOf [versionOf (.obj [("thread".toList, .arr [.null])])]) (0 : Nat)).state.outputText =
        (stateOf [versionOf (.obj [("thread".toList, .arr [.null])])]).outputText :=
  showVersion_null_tweet_throws sampleEngine _ 0 (versionOf _) rfl rfl

/-- C5 as stated fails: the plain string ` a` is displayed as `a`. -/
theorem showVersion_text_not_passthrough :
    (showVersion sampleEngine (stateOf [versionOf (.str " a".toList)]) 0).state.outputText ≠
      " a".toList := by decide

/-- C5, amended: for every version whose content is a plain string, the text
displayed by `showVersion` is that string with its leading and trailing white
space removed. -/
theorem showVersion_text_trimmed (eng : Engine) (s : State) (i : Nat) (v : Version)
    (t : JsString) (hv : s.generatedVersions[i]? = some v) (hc : v.content = .str t) :
    (showVersion eng s i).state.outputText = jsTrim t := by
  rw [showVersion_of_getElem eng s i v hv, renderVersion_outputText eng s i v (by rw [hc]; rfl),
    hc]
  rfl

/-- Witness of the amended C5. -/
theorem showVersion_text_trimmed_witness :
    (showVersion sampleEngine (stateOf [versionOf (.str " a".toList)]) (0 : Nat)).state.outputText
      = jsTrim " a".toList :=
  showVersion_text_trimmed sampleEngine _ 0 (versionOf _) " a".toList rfl rfl

/-- C6 as stated fails: a tweet of a content that also populates caption and
script, and the caption of a content that also carries a thread, do not occur
in the displayed text. -/
theorem showVersion_hides_unselected_fields :
    ¬ ("hidden".toList <:+:
        (showVersion sampleEngine (stateOf [versionOf (.obj [("caption".toList, .str "c".toList),
          ("script".toList, .str "s".toList),
          ("thread".toList, .arr [.str "hidden".toList])])]) 0).state.outputText) ∧
      ¬ ("hidden".toList <:+:
        (showVersion sampleEngine (stateOf [versionOf (.obj [
          ("caption".toList, .str "hidden".toList),
          ("thread".toList, .arr [.str "t".toList])])]) 0).state.outputText) := by
  decide

/-- C6, amended: `showVersion` displays exactly one format, the first that
applies, and the displayed text is that format and nothing else: a plain
string is displayed trimmed; a content that populates both caption and script
is displayed as `CAPTION:`, the caption, the separator, `SCRIPT:` and the
script, trimmed, whatever else it carries; otherwise a thread of texts is
displayed as its `[i/N]` blocks, trimmed; otherwise the label and the JSON
serialisation of the whole content are displayed. -/
theorem showVersion_displays_one_format (eng : Engine) (s : State) (i : Nat) (v : Version)
    (hv : s.generatedVersions[i]? = some v) :
    (∀ t, v.content = .str t → (showVersion eng s i).state.outputText = jsTrim t) ∧
      (∀ (capv scrv : Json) (c sc : JsString),
        prop "caption".toList v.content = some capv →
        prop "script".toList v.content = some scrv →
        truthy capv = true → truthy scrv = true →
        toStr eng capv = .ok c → toStr eng scrv = .ok sc →
        (showVersion eng s i).state.outputText =
          jsTrim ("CAPTION:\n".toList ++ c ++ "\n\n---\n\nSCRIPT:\n".toList ++ sc)) ∧
      (∀ ts, IsThread v.content ts →
        (showVersion eng s i).state.outputText =
          jsTrim (ts.enum.flatMap fun p =>
            '[' :: decimal (p.1 + 1) ++ '/' :: decimal ts.length ++ ']' :: '\n' :: p.2 ++
              "\n\n".toList)) ∧
      ((∀ t, v.content ≠ .str t) →
        ¬ (truthyVal (prop "caption".toList v.content) = true ∧
          truthyVal (prop "script".toList v.content) = true) →
        isArrayVal (prop "thread".toList v.content) = false →
        (showVersion eng s i).state.outputText =
          "Error: Received unexpected content format.".toList ++ "\n\n".toList ++
            jsonStringify v.content) := by
  rw [showVersion_of_getElem eng s i v hv]
  refine ⟨fun t hc => ?_, fun capv scrv c sc hcap hscr htc hts hc hs => ?_, fun ts ht => ?_,
    fun hstr hcs hth => ?_⟩
  · rw [renderVersion_outputText eng s i v (by rw [hc]; rfl), hc]
    rfl
  · have hr := renderContent_captionScript eng v.content capv scrv c sc hcap hscr htc hts hc hs
    rw [renderVersion_outputText eng s i v (by rw [hr]), hr]
  · have hr := renderContent_thread eng v.content ts ht
    rw [renderVersion_outputText eng s i v (by rw [hr]), hr]
    simp only [threadBlocks, threadBlocksFrom_eq_flatMap, List.enum, threadBlock]
  · have hr := renderContent_fallback eng v.content hstr hcs hth
    rw [renderVersion_outputText eng s i v (by rw [hr]), hr]
    simpa [fallbackLabel] using jsTrim_fallback v.content

/-- Witness of the amended C6: a content that populates caption, script and
thread is displayed as caption and script alone. -/
theorem showVersion_displays_one_format_witness :
    (showVersion sampleEngine (stateOf [versionOf (.obj [("caption".toList, .str "c".toList),
        ("script".toList, .str "s ".toList),
        ("thread".toList, .arr [.str "hidden".toList])])]) (0 : Nat)).state.outputText =
      jsTrim ("CAPTION:\n".toList ++ "c".toList ++ "\n\n---\n\nSCRIPT:\n".toList ++
        "s ".toList) :=
  (showVersion_displays_one_format sampleEngine
    (stateOf [versionOf (.obj [("caption".toList, .str "c".toList),
      ("script".toList, .str "s ".toList),
      ("thread".toList, .arr [.str "hidden".toList])])]) 0 (versionOf _) rfl).2.1
    (.str "c".toList) (.str "s ".toList) "c".toList "s ".toList rfl rfl rfl rfl rfl rfl

/-- C7: for every prior state, whatever badges it holds, and every valid index
`i`, the badges present after `showVersion(i)` are exactly the badges of
version `i`: N badges when it is a thread of N tweets, none when its content is
a string, populates caption and script, or has no thread list. -/
theorem showVersion_resets_badges (eng : Engine) (s : State) (i : Nat) (v : Version)
    (hv : s.generatedVersions[i]? = some v) :
    (showVersion eng s i).state.badges = (renderContent eng v.content).badges ∧
      (∀ ts, IsThread v.content ts → (showVersion eng s i).state.badges.length = ts.length) ∧
      ((∃ t, v.content = .str t) ∨
        (truthyVal (prop "caption".toList v.content) = true ∧
          truthyVal (prop "script".toList v.content) = true) ∨
        isArrayVal (prop "thread".toList v.content) = false →
        (showVersion eng s i).state.badges = []) := by
  rw [showVersion_of_getElem eng s i v hv, renderVersion_badges]
  refine ⟨rfl, fun ts ht => ?_, fun h => renderContent_not_thread_badges eng v.content h⟩
  rw [renderContent_thread eng _ ts ht]
  exact threadBadgesFrom_length _ ts 0 []

/-- Witness of C7: a state holding a stale badge, switched to a plain-text version. -/
theorem showVersion_resets_badges_witness :
    (showVersion sampleEngine
        { stateOf [versionOf (.str "a".toList)] with badges := [stringBadge 0 "stale".toList] }
        (0 : Nat)).state.badges = [] :=
  (showVersion_resets_badges sampleEngine
    { stateOf [versionOf (.str "a".toList)] with badges := [stringBadge 0 "stale".toList] }
    0 (versionOf (.str "a".toList)) rfl).2.2 (Or.inl ⟨_, rfl⟩)

/-- C8: in every state reached from a state with an empty version list (the
initial state, with active index 0, is one) by any sequence of `clearResults`,
`displayResults(versions)`, `showVersion(index)` for any integer index, and
successful refines, whenever the version list is not empty the active index
`a` satisfies `0 ≤ a < length`. -/
theorem reachable_activeIndex_valid (eng : Engine) (s0 : State) (ops : List Op)
    (hlist : s0.generatedVersions = []) :
    (run eng s0 ops).generatedVersions ≠ [] →
      0 ≤ (run eng s0 ops).activeVersionIndex ∧
      (run eng s0 ops).activeVersionIndex < (run eng s0 ops).generatedVersions.length :=
  run_valid eng ops s0 (fun hne => absurd hlist hne)

/-- Witness of C8: two versions displayed, the second shown and refined, then an
index out of range requested. -/
theorem reachable_activeIndex_valid_witness :
    0 ≤ (run sampleEngine State.initial
        [.displayResults [versionOf (.str "a".toList), versionOf (.str "b".toList)],
          .showVersion 1, .refine "shorter".toList (versionOf (.str "c".toList)),
          .showVersion 2]).activeVersionIndex ∧
      (run sampleEngine State.initial
        [.displayResults [versionOf (.str "a".toList), versionOf (.str "b".toList)],
          .showVersion 1, .refine "shorter".toList (versionOf (.str "c".toList)),
          .showVersion 2]).activeVersionIndex <
      (run sampleEngine State.initial
        [.displayResults [versionOf (.str "a".toList), versionOf (.str "b".toList)],
          .showVersion 1, .refine "shorter".toList (versionOf (.str "c".toList)),
          .showVersion 2]).generatedVersions.length :=
  reachable_activeIndex_valid sampleEngine State.initial _ rfl
    (List.ne_nil_of_length_pos (by decide))

/-- C9 as stated fails: a refine is submitted while version 1 of two is
active, the tab of version 0 is clicked while the call is in flight, and the
response is written at position 0: position 1 keeps its version and the active
index is 0. -/
theorem refine_after_tab_click_writes_elsewhere :
    ((Page.run sampleEngine
        (Page.idle { stateOf [versionOf (.str "a".toList), versionOf (.str "b".toList)] with
          activeVersionIndex := 1, refineInput := "shorter".toList })
        [.clickSubmitRefine, .clickTab 0,
          .refineSettles (.success (versionOf (.str "c".toList)))]).map
      fun p => (p.state.activeVersionIndex,
        p.state.generatedVersions.map fun v => jsonStringify v.content)) =
      some (0, ["\"c\"".toList, "\"b\"".toList]) := by
  decide

/-- C9, amended: a successful refine replaces exactly one element, the one at
the index that is active when the response arrives: for every state at that
moment whose active index `a` is in range, the list keeps its length, its
element at `a` is the response, every other element is unchanged and the
active index is still `a`.  When nothing else happens between the click and the
response, `a` is the index that was active at the click. -/
theorem refine_replaces_at_arrival (eng : Engine) (s : State) (originalText : JsString)
    (v : Version) (h0 : 0 ≤ s.activeVersionIndex)
    (h1 : s.activeVersionIndex < s.generatedVersions.length) :
    (∃ s1, submitRefineResume eng s originalText (.success v) = some s1 ∧
        s1.generatedVersions.length = s.generatedVersions.length ∧
        s1.generatedVersions[s.activeVersionIndex.toNat]? = some v ∧
        (∀ k : Nat, k ≠ s.activeVersionIndex.toNat →
          s1.generatedVersions[k]? = s.generatedVersions[k]?) ∧
        s1.activeVersionIndex = s.activeVersionIndex) ∧
      (jsTrim s.refineInput ≠ [] → s.submitRefineDisabled = false →
        ∀ (g : Bool) (r : Option JsString), ∃ p,
          Page.run eng ⟨s, g, r⟩ [.clickSubmitRefine, .refineSettles (.success v)] = some p ∧
          p.state.generatedVersions = s.generatedVersions.set s.activeVersionIndex.toNat v ∧
          p.state.activeVersionIndex = s.activeVersionIndex) := by
  constructor
  · obtain ⟨s1, hres, hl, hi⟩ := submitRefineResume_success_store eng s originalText v h0 h1
    refine ⟨s1, hres, ?_, ?_, fun k hk => ?_, hi⟩
    · rw [hl, List.length_set]
    · rw [hl, List.getElem?_set_self (by omega)]
    · rw [hl, List.getElem?_set_ne (Ne.symm hk)]
  · intro hin hen g r
    obtain ⟨s1, hstart, hl1, hi1⟩ := submitRefineStart_awaiting eng s h0 h1 hin hen
    obtain ⟨s2, hres, hl2, hi2⟩ := submitRefineResume_success_store eng s1 s.submitRefineLabel v
      (by rw [hi1]; exact h0) (by rw [hi1, hl1]; exact h1)
    refine ⟨⟨s2, g, none⟩, ?_, by rw [hl2, hl1, hi1], by rw [hi2, hi1]⟩
    simp only [Page.run, Page.step, hstart, hres]

/-- Witness of the amended C9: the response arrives while version 0 of two is
active. -/
theorem refine_replaces_at_arrival_witness :
    ∃ s1, submitRefineResume sampleEngine
        (stateOf [versionOf (.str "a".toList), versionOf (.str "b".toList)]) "Refine".toList
        (.success (versionOf (.str "c".toList))) = some s1 ∧
      s1.generatedVersions.length =
        (stateOf [versionOf (.str "a".toList), versionOf (.str "b".toList)]).generatedVersions.length
        ∧
      s1.generatedVersions[(stateOf [versionOf (.str "a".toList),
        versionOf (.str "b".toList)]).activeVersionIndex.toNat]? =
        some (versionOf (.str "c".toList)) ∧
      (∀ k : Nat, k ≠ (stateOf [versionOf (.str "a".toList),
          versionOf (.str "b".toList)]).activeVersionIndex.toNat →
        s1.generatedVersions[k]? =
          (stateOf [versionOf (.str "a".toList), versionOf (.str "b".toList)]).generatedVersions[k]?)
        ∧
      s1.activeVersionIndex =
        (stateOf [versionOf (.str "a".toList), versionOf (.str "b".toList)]).activeVersionIndex :=
  (refine_replaces_at_arrival sampleEngine
    (stateOf [versionOf (.str "a".toList), versionOf (.str "b".toList)]) "Refine".toList
    (versionOf (.str "c".toList)) (by decide) (by decide)).1

/-- C10 as stated fails: a refine is in flight when Generate is clicked, its
response arrives after `clearResults` and refills the list, and the failure of
`/generate` then leaves one version in the list. -/
theorem generate_failure_after_refine_response_keeps_version :
    ((Page.run sampleEngine
        (Page.idle { stateOf [versionOf (.str "x".toList)] with
          ideaInput := "launch".toList, brandVoiceInput := "witty".toList,
          refineInput := "shorter".toList })
        [.clickSubmitRefine, .clickGenerate,
          .refineSettles (.success (versionOf (.str "v".toList))),
          .generateSettles (.failure 500
            (some (.obj [("detail".toList, .str "quota exceeded".toList)])))]).map
      fun p => p.state.generatedVersions.length) = some 1 := by
  decide

/-- C10, amended: in every state in which no generation is running and the idea
and the tone are not blank, `generateContent` empties the version list before
the call is in flight.  When the call fails with a non-success response whose
body carries a detail, the failure handling leaves the version list as it is
at that moment and displays `An error occurred.`, a blank line and `Details: `
followed by the detail as a template literal converts it (the text `d` itself
when the detail is the text `d`).  So when nothing else happens while the call
is in flight the version list is empty at the end and the displayed text
contains the detail. -/
theorem generate_failure_detail (eng : Engine) (s : State) (status : Nat)
    (fields : List (JsString × Json)) (dv : Json) (t : JsString)
    (hl : s.loading = false) (hi : jsTrim s.ideaInput ≠ [])
    (ht : jsTrim s.brandVoiceInput ≠ [])
    (hd : lookupField "detail".toList fields = some dv) (hs : toStr eng dv = .ok t) :
    (∃ s1, generateContentStart s = .awaiting s1 ∧ s1.generatedVersions = []) ∧
      (∀ s2 : State,
        (generateContentResume eng s2 (.failure status (some (.obj fields)))).generatedVersions =
          s2.generatedVersions ∧
        (generateContentResume eng s2 (.failure status (some (.obj fields)))).outputText =
          "An error occurred.\n\nDetails: ".toList ++ t) ∧
      (∀ (r : Option JsString), ∃ p,
        Page.run eng ⟨s, false, r⟩
          [.clickGenerate, .generateSettles (.failure status (some (.obj fields)))] = some p ∧
        p.state.generatedVersions = [] ∧
        p.state.outputText = "An error occurred.\n\nDetails: ".toList ++ t ∧
        t <:+: p.state.outputText) ∧
      (∀ d, dv = .str d → t = d) := by
  obtain ⟨s1, hstart, hl1⟩ := generateContentStart_awaiting s hl hi ht
  refine ⟨⟨s1, hstart, hl1⟩,
    fun s2 => generateContentResume_failure eng s2 status fields dv t hd hs, fun r => ?_,
    fun d hdv => ?_⟩
  · obtain ⟨hlist, htext⟩ := generateContentResume_failure eng s1 status fields dv t hd hs
    refine ⟨⟨generateContentResume eng s1 (.failure status (some (.obj fields))), false, r⟩, ?_,
      by rw [hlist, hl1], htext, by rw [htext]; exact (List.suffix_append _ _).isInfix⟩
    simp only [Page.run, Page.step, hstart, if_true]
  · rw [hdv] at hs
    simp only [toStr] at hs
    cases hs
    rfl

/-- Witness of the amended C10: a 422 response whose detail is a list of objects. -/
theorem generate_failure_detail_witness :
    ∃ p, Page.run sampleEngine
        ⟨{ stateOf [versionOf (.str "old".toList)] with
            ideaInput := "launch".toList, brandVoiceInput := "witty".toList }, false, none⟩
        [.clickGenerate, .generateSettles (.failure 422 (some (.obj [("detail".toList,
          .arr [.obj [("msg".toList, .str "field required".toList)]])])))] = some p ∧
      p.state.generatedVersions = [] ∧
      p.state.outputText =
        "An error occurred.\n\nDetails: ".toList ++ "[object Object]".toList ∧
      "[object Object]".toList <:+: p.state.outputText :=
  (generate_failure_detail sampleEngine
    { stateOf [versionOf (.str "old".toList)] with
      ideaInput := "launch".toList, brandVoiceInput := "witty".toList }
    422 [("detail".toList, .arr [.obj [("msg".toList, .str "field required".toList)]])]
    (.arr [.obj [("msg".toList, .str "field required".toList)]]) "[object Object]".toList
    rfl (by decide) (by decide) rfl rfl).2.2.1 none

/-- C11 as stated fails: invoked with an empty idea while a generation is
running, `generateContent` returns at once and alerts nobody. -/
theorem generateContent_loading_no_alert :
    (generateContent sampleEngine { State.initial with loading := true } (.rejected [])).alerts =
      ({ State.initial with loading := true } : State).alerts := by
  decide

/-- C11, amended: in every state, invoking `generateContent` when the idea or
the tone is blank performs no network request and leaves the version list and
the displayed results unchanged; it alerts the user unless a generation is
already running, in which case it returns at once and changes nothing. -/
theorem generateContent_blank_input (eng : Engine) (s : State)
    (result : FetchResult (Option (List Version)))
    (hblank : jsTrim s.ideaInput = [] ∨ jsTrim s.brandVoiceInput = []) :
    (generateContent eng s result).requests = s.requests ∧
      (generateContent eng s result).generatedVersions = s.generatedVersions ∧
      (generateContent eng s result).activeVersionIndex = s.activeVersionIndex ∧
      (generateContent eng s result).outputText = s.outputText ∧
      (generateContent eng s result).tabs = s.tabs ∧
      (generateContent eng s result).badges = s.badges ∧
      (s.loading = false → generateContent eng s result =
        { s with alerts :=
            s.alerts ++ ["Please fill in the idea and brand voice fields.".toList] }) ∧
      (s.loading = true → generateContent eng s result = s) := by
  have hguard : ((jsTrim s.ideaInput).isEmpty || (jsTrim s.brandVoiceInput).isEmpty) = true := by
    rcases hblank with h | h <;> simp [h]
  rcases Bool.eq_false_or_eq_true s.loading with hl | hl
  · have hgen : generateContent eng s result = s := by
      unfold generateContent
      rw [hl]
      rfl
    rw [hgen]
    refine ⟨rfl, rfl, rfl, rfl, rfl, rfl, ?_, fun _ => rfl⟩
    intro h
    rw [hl] at h
    cases h
  · have hgen : generateContent eng s result =
        { s with alerts :=
            s.alerts ++ ["Please fill in the idea and brand voice fields.".toList] } := by
      unfold generateContent
      rw [hl, hguard]
      rfl
    rw [hgen]
    refine ⟨rfl, rfl, rfl, rfl, rfl, rfl, fun _ => rfl, ?_⟩
    intro h
    rw [hl] at h
    cases h

/-- Witness of the amended C11: an empty idea on a page showing one version. -/
theorem generateContent_blank_input_witness :
    (generateContent sampleEngine
        { stateOf [versionOf (.str "old".toList)] with brandVoiceInput := "witty".toList }
        (.rejected [])).requests = [] ∧
      (generateContent sampleEngine
        { stateOf [versionOf (.str "old".toList)] with brandVoiceInput := "witty".toList }
        (.rejected [])).alerts = ["Please fill in the idea and brand voice fields.".toList] :=
  ⟨(generateContent_blank_input sampleEngine
      { stateOf [versionOf (.str "old".toList)] with brandVoiceInput := "witty".toList }
      (.rejected []) (Or.inl (by decide))).1,
    congrArg State.alerts
      ((generateContent_blank_input sampleEngine
        { stateOf [versionOf (.str "old".toList)] with brandVoiceInput := "witty".toList }
        (.rejected []) (Or.inl (by decide))).2.2.2.2.2.2.1 rfl)⟩

/-- C12, at the input on which it fails: submitted while the version list is
empty, the refine handler throws at line 179, before its `try`, and leaves
`submitRefineBtn` and `cancelRefineBtn` disabled and the label at `Refining...`,
whatever the outcome of the call would have been. -/
theorem submitRefine_empty_list_stays_disabled (eng : Engine) (s : State)
    (result : FetchResult Version) (hlist : s.generatedVersions = [])
    (hin : jsTrim s.refineInput ≠ []) (hen : s.submitRefineDisabled = false) :
    (submitRefine eng s result).thrown = some (eng.undefinedReadMessage "content".toList) ∧
      (submitRefine eng s result).state.submitRefineDisabled = true ∧
      (submitRefine eng s result).state.cancelRefineDisabled = true ∧
      (submitRefine eng s result).state.submitRefineLabel = "Refining...".toList ∧
      (submitRefine eng s result).state.requests = s.requests := by
  have hne : s.refineInput ≠ [] := by
    intro h
    rw [h] at hin
    exact hin rfl
  have hguard : (s.refineInput.isEmpty || (jsTrim s.refineInput).isEmpty ||
      s.submitRefineDisabled) = false := by
    simp [hen, List.isEmpty_iff, hne, hin]
  have hrange : s.activeVersionIndex < 0 ∨
      s.activeVersionIndex ≥ (s.generatedVersions.length : Int) := by
    rw [hlist]
    simp only [List.length_nil, Nat.cast_zero]
    omega
  unfold submitRefine
  rw [hguard]
  simp only [Bool.false_eq_true, if_false]
  rw [if_pos hrange]
  exact ⟨rfl, rfl, rfl, rfl, rfl⟩

/-- Witness of the failure of C12: a generation fails, which leaves the error
text displayed and the version list empty; a refine is then submitted. -/
theorem submitRefine_empty_list_stays_disabled_witness :
    (submitRefine sampleEngine
        { generateContent sampleEngine
            { State.initial with ideaInput := "launch".toList, brandVoiceInput := "witty".toList }
            (.failure 500 none) with refineInput := "shorter".toList }
        (.success (versionOf (.str "new".toList)))).thrown =
        some (sampleEngine.undefinedReadMessage "content".toList) ∧
      (submitRefine sampleEngine
        { generateContent sampleEngine
            { State.initial with ideaInput := "launch".toList, brandVoiceInput := "witty".toList }
            (.failure 500 none) with refineInput := "shorter".toList }
        (.success (versionOf (.str "new".toList)))).state.submitRefineDisabled = true :=
  ⟨(submitRefine_empty_list_stays_disabled sampleEngine
      { generateContent sampleEngine
          { State.initial with ideaInput := "launch".toList, brandVoiceInput := "witty".toList }
          (.failure 500 none) with refineInput := "shorter".toList }
      (.success (versionOf (.str "new".toList))) rfl (by decide) rfl).1,
    (submitRefine_empty_list_stays_disabled sampleEngine
      { generateContent sampleEngine
          { State.initial with ideaInput := "launch".toList, brandVoiceInput := "witty".toList }
          (.failure 500 none) with refineInput := "shorter".toList }
      (.success (versionOf (.str "new".toList))) rfl (by decide) rfl).2.1⟩

/-- C13, at the input on which it fails: when `/generate` answers a non-success
status with a JSON object that has no `detail` field, the text displayed is
`Details: undefined`, not the default message. -/
theorem generateContent_failure_without_detail (eng : Engine) (s : State) (status : Nat)
    (fields : List (JsString × Json))
    (hl : s.loading = false) (hi : jsTrim s.ideaInput ≠ [])
    (ht : jsTrim s.brandVoiceInput ≠ [])
    (hd : lookupField "detail".toList fields = none) :
    (generateContent eng s (.failure status (some (.obj fields)))).outputText =
      "An error occurred.\n\nDetails: undefined".toList := by
  have hguard : ((jsTrim s.ideaInput).isEmpty || (jsTrim s.brandVoiceInput).isEmpty) = false := by
    simp [List.isEmpty_iff, hi, ht]
  have hdet : errorDetail eng "An unknown error occurred on the server.".toList
      (some (.obj fields)) = .ok "undefined".toList := by
    simp only [errorDetail, getProp, prop, hd, toStrVal]
  unfold generateContent
  rw [hl, hguard]
  simp only [Bool.false_eq_true, if_false, hdet]
  rfl

/-- Witness of the failure of C13: a 500 response whose body is the empty object. -/
theorem generateContent_failure_without_detail_witness :
    (generateContent sampleEngine
        { State.initial with ideaInput := "launch".toList, brandVoiceInput := "witty".toList }
        (.failure 500 (some (.obj [])))).outputText =
      "An error occurred.\n\nDetails: undefined".toList :=
  generateContent_failure_without_detail sampleEngine
    { State.initial with ideaInput := "launch".toList, brandVoiceInput := "witty".toList }
    500 [] rfl (by decide) (by decide) rfl

/-- C15 as stated fails: for the empty list of voices no voice matches either
criterion, and `findAndSetVoices` hides neither option. -/
theorem findAndSetVoices_empty_list_hides_nothing :
    (∀ v ∈ ([] : List Voice), isMaleVoice asciiLowerCase v = false) ∧
      (∀ v ∈ ([] : List Voice), isFemaleVoice asciiLowerCase v = false) ∧
      (findAndSetVoices asciiLowerCase VoiceState.initial []).maleVoiceBtnHidden = false ∧
      (findAndSetVoices asciiLowerCase VoiceState.initial []).femaleVoiceBtnHidden = false :=
  ⟨fun _ h => (nomatch h), fun _ h => (nomatch h), rfl, rfl⟩

/-- C15, amended: for every non-empty list of system voices, after
`findAndSetVoices` the male option is hidden whenever no voice in the list
matches the male criteria, and the female option is hidden whenever no voice
in the list matches the female criteria. -/
theorem findAndSetVoices_hides_unmatched (toLowerCase : JsString → JsString) (vs : VoiceState)
    (voices : List Voice) (hne : voices ≠ []) :
    ((∀ v ∈ voices, isMaleVoice toLowerCase v = false) →
        (findAndSetVoices toLowerCase vs voices).maleVoiceBtnHidden = true) ∧
      ((∀ v ∈ voices, isFemaleVoice toLowerCase v = false) →
        (findAndSetVoices toLowerCase vs voices).femaleVoiceBtnHidden = true) := by
  have hlen : ¬ voices.length = 0 := fun h => hne (List.length_eq_zero.mp h)
  unfold findAndSetVoices
  rw [if_neg hlen]
  constructor
  · intro h
    have hnone : voices.find? (isMaleVoice toLowerCase) = none :=
      List.find?_eq_none.mpr fun u hu => by rw [h u hu]; exact Bool.false_ne_true
    simp only [hnone]
    rfl
  · intro h
    have hnone : voices.find? (isFemaleVoice toLowerCase) = none :=
      List.find?_eq_none.mpr fun u hu => by rw [h u hu]; exact Bool.false_ne_true
    simp only [hnone]
    rfl

/-- Witness of the amended C15: only a French voice and an English voice named
`Microsoft Zira` are installed, so the male option is hidden. -/
theorem findAndSetVoices_hides_unmatched_witness :
    (findAndSetVoices asciiLowerCase VoiceState.initial
      [⟨"Thomas".toList, "fr-FR".toList⟩,
        ⟨"Microsoft Zira".toList, "en-US".toList⟩]).maleVoiceBtnHidden = true :=
  (findAndSetVoices_hides_unmatched asciiLowerCase VoiceState.initial
    [⟨"Thomas".toList, "fr-FR".toList⟩, ⟨"Microsoft Zira".toList, "en-US".toList⟩]
    (by decide)).1 (by decide)

/-- C16: every voice whose language starts with `en` and whose lower-cased name
contains `female` satisfies the male-voice predicate; so for a voice list whose
first English voice is such a voice, `findAndSetVoices` sets `maleVoice` and
`femaleVoice` to that same voice and hides neither option (each keeps the
display it had). -/
theorem findAndSetVoices_female_name_is_male (toLowerCase : JsString → JsString)
    (vs : VoiceState) (pre rest : List Voice) (v : Voice)
    (hpre : ∀ u ∈ pre, jsStartsWith u.lang "en".toList = false)
    (hen : jsStartsWith v.lang "en".toList = true)
    (hfem : jsIncludes (toLowerCase v.name) "female".toList = true) :
    isMaleVoice toLowerCase v = true ∧
      (findAndSetVoices toLowerCase vs (pre ++ v :: rest)).maleVoice = some v ∧
      (findAndSetVoices toLowerCase vs (pre ++ v :: rest)).femaleVoice = some v ∧
      (findAndSetVoices toLowerCase vs (pre ++ v :: rest)).maleVoiceBtnHidden =
        vs.maleVoiceBtnHidden ∧
      (findAndSetVoices toLowerCase vs (pre ++ v :: rest)).femaleVoiceBtnHidden =
        vs.femaleVoiceBtnHidden := by
  have hmale := male_of_female_name toLowerCase v hen hfem
  have hfemale : isFemaleVoice toLowerCase v = true := by
    unfold isFemaleVoice
    rw [hen, hfem]
    rfl
  have hm := find?_first_english (isMaleVoice toLowerCase) pre rest v
    (fun u hu => (not_male_of_not_english toLowerCase u (hpre u hu)).1) hmale
  have hf := find?_first_english (isFemaleVoice toLowerCase) pre rest v
    (fun u hu => (not_male_of_not_english toLowerCase u (hpre u hu)).2) hfemale
  have hlen : ¬ (pre ++ v :: rest).length = 0 := by simp
  have hres : findAndSetVoices toLowerCase vs (pre ++ v :: rest) =
      ⟨some v, some v, vs.maleVoiceBtnHidden, vs.femaleVoiceBtnHidden⟩ := by
    unfold findAndSetVoices
    rw [if_neg hlen]
    simp only [hm, hf]
    rfl
  rw [hres]
  exact ⟨hmale, rfl, rfl, rfl, rfl⟩

/-- Witness of C16: a German voice followed by `Google UK English Female`. -/
theorem findAndSetVoices_female_name_is_male_witness :
    (findAndSetVoices asciiLowerCase VoiceState.initial
        ([⟨"Anna".toList, "de-DE".toList⟩] ++
          ⟨"Google UK English Female".toList, "en-GB".toList⟩ ::
          [⟨"Google UK English Male".toList, "en-GB".toList⟩])).maleVoice =
        some ⟨"Google UK English Female".toList, "en-GB".toList⟩ ∧
      (findAndSetVoices asciiLowerCase VoiceState.initial
        ([⟨"Anna".toList, "de-DE".toList⟩] ++
          ⟨"Google UK English Female".toList, "en-GB".toList⟩ ::
          [⟨"Google UK English Male".toList, "en-GB".toList⟩])).femaleVoice =
        some ⟨"Google UK English Female".toList, "en-GB".toList⟩ ∧
      (findAndSetVoices asciiLowerCase VoiceState.initial
        ([⟨"Anna".toList, "de-DE".toList⟩] ++
          ⟨"Google UK English Female".toList, "en-GB".toList⟩ ::
          [⟨"Google UK English Male".toList, "en-GB".toList⟩])).maleVoiceBtnHidden = false :=
  have h := findAndSetVoices_female_name_is_male asciiLowerCase VoiceState.initial
    [⟨"Anna".toList, "de-DE".toList⟩] [⟨"Google UK English Male".toList, "en-GB".toList⟩]
    ⟨"Google UK English Female".toList, "en-GB".toList⟩ (by decide) (by decide) (by decide)
  ⟨h.2.1, h.2.2.1, h.2.2.2.1⟩

end ContentGen
